import Mathlib

/-!
# qt-pods: PodManager

A shallow embedding of `src/podmanager.cpp` (class `PodManager`) and the proofs of
the properties its specification states.

Every slot of `PodManager` is a state transformer on a `World`: the state of the
process and of the files it works on.  External tools (`QProcess::execute`) and the
parts of the file system that the external tools own are described by an `Env`, over an
arbitrary type of outside states, so that every theorem holds for every behaviour of
the external commands.

Conventions of the model:

* `QString::arg` is modelled by `qArg`; a command built with one argument is kept as its
  template and argument, a command built with two chained calls of `arg` is the text
  that the two calls leave (`Cmd`); the texts written to files have no place marker left
  when an argument is substituted, so they are built by concatenation;
* a `QSettings` file is a list of key/value pairs, a key being its list of segments
  between slashes (`Settings`);
* the files written by `PodManager` itself are not altered by the external commands;
  `QFile::remove` succeeds where `World.canRemove` says so, and `QFile::open` where
  `World.canOpen` says so;
* every signal emitted and every command run is recorded, in order, in `World.trace`.
-/

namespace PodManager

/-! ## Data model -/

/-- Modelled from the spec: `pod.h` is not among the sources.  A pod has a `name`,
a `url` and the four free-text fields `author`, `description`, `license`, `website`;
a default-constructed `Pod` has empty strings everywhere. -/
structure Pod where
  name : String := ""
  url : String := ""
  author : String := ""
  description : String := ""
  license : String := ""
  website : String := ""
deriving DecidableEq

/-- A path as the program builds it: the directory given to `QDir` followed by the
entries appended with `QDir::filePath`, `QDir::absoluteFilePath` or `QDir::cd`.
`[repository, ".git"]` is `QDir(repository).filePath(".git")`. -/
abbrev Path := List String

/-! ## QString::arg -/

/-- A piece of a format string as `QString::arg` reads it: a character that is kept, or a
place marker (`%1`, `%L1`, `%12`, ...) with its number and its text. -/
inductive Piece where
  | plain (c : Char)
  | marker (number : Nat) (text : List Char)
deriving DecidableEq

/-- The value of a decimal digit (`QChar::digitValue` on the digits `0` to `9`). -/
def digitValue (c : Char) : Option Nat :=
  if 48 ≤ c.toNat ∧ c.toNat ≤ 57 then some (c.toNat - 48) else none

/-- Where the scan of a format string stands: outside a marker, after `%` or `%L` (with
the text read), or after the first digit of a marker (with its value and the text read). -/
inductive Scan where
  | outside
  | opened (text : List Char)
  | numbered (number : Nat) (text : List Char)

/-- The scan of a format string for place markers, as in `QString::arg`: a marker is `%`,
an optional `L`, and one or two digits; anything else is kept, and a `%` that starts no
marker is kept too. -/
def pieces : Scan → List Char → List Piece
  | Scan.outside, [] => []
  | Scan.outside, c :: cs =>
    if c = '%' then pieces (Scan.opened ['%']) cs else Piece.plain c :: pieces Scan.outside cs
  | Scan.opened text, [] => text.map Piece.plain
  | Scan.opened text, c :: cs =>
    if c = 'L' ∧ text = ['%'] then pieces (Scan.opened ['%', 'L']) cs
    else match digitValue c with
      | some d => pieces (Scan.numbered d (text ++ [c])) cs
      | none =>
        text.map Piece.plain ++
          (if c = '%' then pieces (Scan.opened ['%']) cs
           else Piece.plain c :: pieces Scan.outside cs)
  | Scan.numbered n text, [] => [Piece.marker n text]
  | Scan.numbered n text, c :: cs =>
    match digitValue c with
    | some d => Piece.marker (10 * n + d) (text ++ [c]) :: pieces Scan.outside cs
    | none =>
      Piece.marker n text ::
        (if c = '%' then pieces (Scan.opened ['%']) cs
         else Piece.plain c :: pieces Scan.outside cs)

/-- The lowest number among the place markers, when there is a marker. -/
def lowestMarker : List Piece → Option Nat
  | [] => none
  | Piece.plain _ :: rest => lowestMarker rest
  | Piece.marker n _ :: rest =>
    match lowestMarker rest with
    | none => some n
    | some m => some (min n m)

/-- The text in which every marker of the given number is replaced by the argument. -/
def substitute (number : Nat) (argument : List Char) : List Piece → List Char
  | [] => []
  | Piece.plain c :: rest => c :: substitute number argument rest
  | Piece.marker n text :: rest =>
    (if n = number then argument else text) ++ substitute number argument rest

/-- The call `format.arg(argument)`: every occurrence of the lowest-numbered place marker
of the format is replaced by the argument; a format without marker is returned as it is. -/
def qArg (format argument : String) : String :=
  match lowestMarker (pieces Scan.outside format.data) with
  | none => format
  | some number => String.mk (substitute number argument.data (pieces Scan.outside format.data))

/-- The text `QString("git submodule add %1 %2").arg(url).arg(name)`. -/
def submoduleAddText (url name : String) : String :=
  qArg (qArg "git submodule add %1 %2" url) name

/-- The text `QString("rm -rf %1/.git/modules/%2").arg(repository).arg(podName)`. -/
def rmModulesText (repository podName : String) : String :=
  qArg (qArg "rm -rf %1/.git/modules/%2" repository) podName

/-! ## Commands, signals and events -/

/-- The external commands handed to `QProcess::execute`.  A command built from a template
with the one marker `%1` has a constructor of its own, with the argument: one call of
`arg` puts the argument in the place of `%1` and changes nothing else.  A command built
with two chained calls of `arg` is given by the text the calls leave. -/
inductive Cmd where
  /-- A command given by its text: `Cmd.line (submoduleAddText url name)` is the command
  `QString("git submodule add %1 %2").arg(pod.url).arg(pod.name)`, and
  `Cmd.line (rmModulesText repository podName)` is the command
  `QString("rm -rf %1/.git/modules/%2").arg(repository).arg(podName)`. -/
  | line (text : String)
  /-- The command `QString("git submodule deinit -f %1").arg(podName)`. -/
  | submoduleDeinit (podName : String)
  /-- The command `QString("git rm -rf %1").arg(podName)`. -/
  | gitRm (podName : String)
  /-- The command `QString("git stash")`. -/
  | gitStash
  /-- The command `QString("git checkout master")`. -/
  | gitCheckoutMaster
  /-- The command `QString("git pull")`. -/
  | gitPull
  /-- The command `QString("git add %1").arg(fileName)`. -/
  | gitAdd (fileName : Path)
deriving DecidableEq

/-- The signals of `PodManager` that `podmanager.cpp` emits, with their arguments. -/
inductive Signal where
  | isGitRepositoryFinished (repository : String) (isGitRepository : Bool)
  | installPodFinished (repository : String) (pod : Pod) (success : Bool)
  | installPodsFinished (repository : String) (pods : List Pod) (success : Bool)
  | removePodFinished (repository : String) (podName : String) (success : Bool)
  | removePodsFinished (repository : String) (podNames : List String) (success : Bool)
  | updatePodFinished (repository : String) (podName : String) (success : Bool)
  | updatePodsFinished (repository : String) (podNames : List String) (success : Bool)
  | updateAllPodsFinished (repository : String) (success : Bool)
  | installedPodsFinished (repository : String) (pods : List Pod)
  | availablePodsFinished (sources : List String) (pods : List Pod)
  | generatePodsPriFinished (repository : String)
  | generatePodsSubdirsPriFinished (repository : String)
  | generateSubdirsProFinished (repository : String)
  | checkPodFinished (repository : String) (podName : String) (isValidPod : Bool)
deriving DecidableEq

/-- What an observer of the process sees, in the order it happens: a signal emitted,
or an external command run to completion in a working directory with an exit status. -/
inductive Event where
  | emitted (signal : Signal)
  | executed (cwd : String) (cmd : Cmd) (exitStatus : Int)
deriving DecidableEq

/-! ## QSettings (INI files) -/

/-- The contents of a `QSettings` file: the key/value pairs in the order `QSettings`
lists them.  A key is held as the list of its segments, the parts between slashes: the key
`foo/author`, which `beginGroup("foo"); setValue("author", ...)` writes, is
`["foo", "author"]`. -/
abbrev Settings := List (List String × String)

/-- The value paired with the first occurrence of a key in an association list. -/
def assoc {β : Type} (key : String) : List (String × β) → Option β
  | [] => none
  | (k, v) :: rest => if k = key then some v else assoc key rest

/-- The parts of a text between slashes, the empty parts included. -/
def splitSlash : List Char → List (List Char)
  | [] => [[]]
  | c :: cs =>
    if c = '/' then [] :: splitSlash cs
    else match splitSlash cs with
      | [] => [[c]]
      | part :: parts => (c :: part) :: parts

/-- The segments of a key as `QSettings` normalises it (`normalizedKey`): slashes at the
ends are dropped and repeated slashes count once, so the segments are the non-empty parts
between slashes.  The empty key and `/` have no segment. -/
def segments (key : String) : List String :=
  ((splitSlash key.data).filter (fun part => !part.isEmpty)).map String.mk

/-- The value stored under a key, when there is one. -/
def Settings.find (key : List String) : Settings → Option String
  | [] => none
  | (k, v) :: rest => if k = key then some v else Settings.find key rest

/-- Replace the value stored under a key, or append the key when it is not there. -/
def Settings.store (key : List String) (value : String) : Settings → Settings
  | [] => [(key, value)]
  | (k, v) :: rest =>
    if k = key then (k, value) :: rest else (k, v) :: Settings.store key value rest

/-- The elements of a list, each kept at its first occurrence only. -/
def firstOccurrences : List String → List String
  | [] => []
  | x :: rest => x :: (firstOccurrences rest).filter (fun y => decide (y ≠ x))

/-- The list `QSettings::childGroups()` at the top level: the first segments of the keys
that have more than one segment, each listed once. -/
def Settings.childGroups (s : Settings) : List String :=
  firstOccurrences (s.filterMap fun entry =>
    match entry.1 with
    | group :: _ :: _ => some group
    | _ => none)

/-- The entries under a group, with their keys relative to the group; `none` when there is
no entry under the group. -/
def Settings.group (s : Settings) (name : String) : Option (List (List String × String)) :=
  match s.filterMap (fun entry =>
      if (segments name).isPrefixOf entry.1 then
        some (entry.1.drop (segments name).length, entry.2)
      else none) with
  | [] => none
  | entry :: rest => some (entry :: rest)

/-- The value `QSettings::value(key).toString()` after `beginGroup(group)`: the value
stored under the key of the group, and the empty string when there is none. -/
def Settings.value (s : Settings) (group key : String) : String :=
  (Settings.find (segments group ++ segments key) s).getD ""

/-- The effect of `beginGroup(group); setValue(key, value); endGroup()`. -/
def Settings.setValue (group key value : String) (s : Settings) : Settings :=
  Settings.store (segments group ++ segments key) value s

/-- The effect of `QSettings::remove(key)` at the top level: the key and every key under
it are gone; for a key without segment (the empty key) that is every key of the file. -/
def Settings.remove (key : String) (s : Settings) : Settings :=
  s.filter (fun entry => !(segments key).isPrefixOf entry.1)

/-- Two keys overlap when, segment by segment, one of them begins with the other: removing
one with `QSettings::remove` then removes entries under the other.  The empty key overlaps
with every key. -/
def overlap (a b : String) : Prop :=
  segments a <+: segments b ∨ segments b <+: segments a

/-! ## The environment and the world -/

/-- The side of the world that `PodManager` only observes or hands to external tools:
the outcome of every external command, and the files and directories that `git` and the
user own (`.git`, `.gitmodules`, the pods' working trees).  `σ` is the type of outside
states; a command may change the outside state in any way. -/
structure Env (σ : Type) where
  /-- The call `QProcess::execute(cmd)` in a working directory: exit status, new state. -/
  execute : Cmd → String → σ → Int × σ
  /-- The test `QFile::exists(path)`. -/
  fileExists : σ → Path → Bool
  /-- The test made by `QDir::cd`: the path names an existing directory. -/
  dirExists : σ → Path → Bool
  /-- The call `QDir::setCurrent(path)` made in the working directory `cwd`: the new
  working directory (as `QDir::current().absolutePath()` reports it), or `none` when the
  change fails. -/
  chdir : σ → String → Path → Option String
  /-- The groups `QSettings` reads from the submodule manifest at the given path. -/
  gitmodules : σ → Path → Settings

/-- The state a slot of `PodManager` runs in.  The files `PodManager` writes itself
(`.podinfo` through `QSettings`; `pods.pri`, `pods-subdirs.pri` and the subdirs project
file through `QFile`) are kept apart from the outside state: external commands do not
alter them.  Files are named by the path the program builds for them. -/
structure World (σ : Type) where
  /-- The state of everything the external tools own. -/
  outside : σ
  /-- The process-wide working directory, `QDir::current().absolutePath()`. -/
  cwd : String
  /-- The `QSettings` files written by `PodManager`. -/
  settings : Path → Settings
  /-- The content of the files written through `QFile`; `none` when the file is absent. -/
  files : Path → Option String
  /-- Whether `QFile::remove()` succeeds on the path when the file is there. -/
  canRemove : Path → Bool
  /-- Whether `QFile::open(QFile::ReadWrite)` succeeds on the path. -/
  canOpen : Path → Bool
  /-- The events observed so far, oldest first. -/
  trace : List Event

variable {σ : Type}

/-- Emit a signal: `emit signal(...)`. -/
def emit (signal : Signal) (w : World σ) : World σ :=
  { w with trace := w.trace ++ [Event.emitted signal] }

/-- The call `QDir::setCurrent(path)`; the result of the call is ignored by every
caller, so a failed change leaves the working directory as it is. -/
def setCurrent (env : Env σ) (path : Path) (w : World σ) : World σ :=
  match env.chdir w.outside w.cwd path with
  | some dir => { w with cwd := dir }
  | none => w

/-- The call `QProcess::execute(cmd)` in the current working directory. -/
def execute (env : Env σ) (cmd : Cmd) (w : World σ) : Int × World σ :=
  let r := env.execute cmd w.cwd w.outside
  (r.1, { w with outside := r.2, trace := w.trace ++ [Event.executed w.cwd cmd r.1] })

/-- A function changed at one argument. -/
def setAt {β : Type} (f : Path → β) (path : Path) (b : β) : Path → β :=
  fun p => if p = path then b else f p

/-- The call `QFile::remove()`: the file is gone afterwards when the removal succeeds, and
is left as it is when the removal fails.  Every caller ignores the result of the call. -/
def removeFile (path : Path) (w : World σ) : World σ :=
  if w.canRemove path then { w with files := setAt w.files path none } else w

/-- The calls `file.write(data); file.close()` on a file opened with `QFile::ReadWrite`:
the file exists afterwards, `data` stands at its beginning, and what the file held
beyond the length of `data` stays (the open mode does not truncate). -/
def writeFile (path : Path) (data : String) (w : World σ) : World σ :=
  let old := ((w.files path).getD "").data
  { w with files := setAt w.files path (some (String.mk (data.data ++ old.drop data.data.length))) }

/-! ## PodManager -/

/-- The slot `PodManager::isGitRepository`. -/
def isGitRepository (env : Env σ) (repository : String) (w : World σ) : Bool × World σ :=
  let gitPath : Path := [repository, ".git"]
  let result := env.fileExists w.outside gitPath
  (result, emit (Signal.isGitRepositoryFinished repository result) w)

/-- The method `PodManager::stageFile`. -/
def stageFile (env : Env σ) (repository : String) (fileName : Path) (w : World σ) : World σ :=
  let cwd := w.cwd
  let w1 := setCurrent env [repository] w
  let r := execute env (Cmd.gitAdd fileName) w1
  setCurrent env [cwd] r.2

/-- The method `PodManager::purgePodInfo`. -/
def purgePodInfo (env : Env σ) (repository podName : String) (w : World σ) : World σ :=
  let podinfoPath : Path := [repository, ".podinfo"]
  let podinfo := Settings.remove podName (w.settings podinfoPath)
  stageFile env repository [".podinfo"] { w with settings := setAt w.settings podinfoPath podinfo }

/-- The method `PodManager::writePodInfo`. -/
def writePodInfo (env : Env σ) (repository : String) (pod : Pod) (w : World σ) : World σ :=
  let podinfoPath : Path := [repository, ".podinfo"]
  let podinfo :=
    Settings.setValue pod.name "website" pod.website
      (Settings.setValue pod.name "license" pod.license
        (Settings.setValue pod.name "description" pod.description
          (Settings.setValue pod.name "author" pod.author (w.settings podinfoPath))))
  stageFile env repository [".podinfo"] { w with settings := setAt w.settings podinfoPath podinfo }

/-- The method `PodManager::readPodInfo`; the pod passed by reference is returned. -/
def readPodInfo (repository : String) (pod : Pod) (w : World σ) : Pod :=
  let podinfo := w.settings [repository, ".podinfo"]
  if pod.name ∈ Settings.childGroups podinfo then
    { pod with
      author := Settings.value podinfo pod.name "author"
      description := Settings.value podinfo pod.name "description"
      license := Settings.value podinfo pod.name "license"
      website := Settings.value podinfo pod.name "website" }
  else pod

/-- The test `childGroup.startsWith("submodule")`. -/
def startsWithSubmodule (childGroup : String) : Bool :=
  List.isPrefixOf "submodule".data childGroup.data

/-- The list that `PodManager::installedPods` builds before it emits its signal. -/
def installedPodList (env : Env σ) (repository : String) (w : World σ) : List Pod :=
  let gitmodulesPath : Path := [repository, ".gitmodules"]
  if env.fileExists w.outside gitmodulesPath then
    let gitmodules := env.gitmodules w.outside gitmodulesPath
    ((Settings.childGroups gitmodules).filter startsWithSubmodule).map fun childGroup =>
      readPodInfo repository
        { name := Settings.value gitmodules childGroup "path"
          url := Settings.value gitmodules childGroup "url" } w
  else []

/-- The slot `PodManager::installedPods`. -/
def installedPods (env : Env σ) (repository : String) (w : World σ) : List Pod × World σ :=
  let pods := installedPodList env repository w
  (pods, emit (Signal.installedPodsFinished repository pods) w)

/-- The header of `pods.pri`. -/
def podsPriHeader : String :=
  "# Auto-generated by qt-pods. Do not edit.\n# Include this to your application project file with:\n# include(../pods.pri)\n# This file should be put under version control.\n"

/-- The loop of `generatePodsPri`: `includePris += QString("include(%1/%1.pri)\n").arg(pod.name)`
for every pod, starting from the empty string. -/
def includePris (pods : List Pod) : String :=
  pods.foldl (fun acc pod => acc ++ ("include(" ++ pod.name ++ "/" ++ pod.name ++ ".pri)\n")) ""

/-- The text `QString("%1\n%2\n").arg(header).arg(includePris)` of `generatePodsPri`. -/
def podsPriText (pods : List Pod) : String :=
  podsPriHeader ++ "\n" ++ includePris pods ++ "\n"

/-- The slot `PodManager::generatePodsPri`. -/
def generatePodsPri (env : Env σ) (repository : String) (w : World σ) : World σ :=
  let r := installedPods env repository w
  let podsPri := podsPriText r.1
  let file : Path := [repository, "pods.pri"]
  let w1 := removeFile file r.2
  let w2 := if w1.canOpen file then writeFile file podsPri w1 else w1
  let w3 := stageFile env repository file w2
  emit (Signal.generatePodsPriFinished repository) w3

/-- The header of `pods-subdirs.pri`. -/
def podsSubdirsPriHeader : String :=
  "# Auto-generated by qt-pods. Do not edit.\n# Include this to your subdirs project file with:\n# include(pods-subdirs.pri)\n# This file should be put under version control.\n"

/-- The loop of `generatePodsSubdirsPri`: `subdirs += QString("\\\n\t%1 ").arg(pod.name)`
for every pod, starting from `"SUBDIRS += "`. -/
def subdirsLine (pods : List Pod) : String :=
  pods.foldl (fun acc pod => acc ++ ("\\\n\t" ++ pod.name ++ " ")) "SUBDIRS += "

/-- The text `QString("%1\n%2\n\n").arg(header).arg(subdirs)` of `generatePodsSubdirsPri`. -/
def podsSubdirsPriText (pods : List Pod) : String :=
  podsSubdirsPriHeader ++ "\n" ++ subdirsLine pods ++ "\n\n"

/-- The slot `PodManager::generatePodsSubdirsPri`. -/
def generatePodsSubdirsPri (env : Env σ) (repository : String) (w : World σ) : World σ :=
  let r := installedPods env repository w
  let podsSubdirsPri := podsSubdirsPriText r.1
  let file : Path := [repository, "pods-subdirs.pri"]
  let w1 := removeFile file r.2
  let w2 := if w1.canOpen file then writeFile file podsSubdirsPri w1 else w1
  let w3 := stageFile env repository file w2
  emit (Signal.generatePodsSubdirsPriFinished repository) w3

/-- The name `QDir(repository).dirName()`: what follows the last `/` of the path, a
trailing `/` of a path longer than one character being dropped first. -/
def dirName (repository : String) : String :=
  let p := repository.data
  let q := if 1 < p.length ∧ p.getLast? = some '/' then p.dropLast else p
  String.mk (q.reverse.takeWhile (fun c => decide (c ≠ '/'))).reverse

/-- The text written to a new subdirs project file. -/
def subdirsProText : String :=
  "# Auto-generated by qt-pods.\n# This file should be put under version control.\nTEMPLATE = subdirs\nSUBDIRS =\ninclude(pods-subdirs.pri)\n"

/-- The path of the subdirs project file, `QString("%1.pro").arg(dir.dirName())` in the
repository. -/
def subdirsProPath (repository : String) : Path :=
  [repository, dirName repository ++ ".pro"]

/-- The slot `PodManager::generateSubdirsPro`. -/
def generateSubdirsPro (env : Env σ) (repository : String) (w : World σ) : World σ :=
  let file : Path := subdirsProPath repository
  let w1 :=
    if (w.files file).isSome then w
    else if w.canOpen file then writeFile file subdirsProText w
    else w
  let w2 := stageFile env repository file w1
  emit (Signal.generateSubdirsProFinished repository) w2

/-- The slot `PodManager::installPod`. -/
def installPod (env : Env σ) (repository : String) (pod : Pod) (w : World σ) : Bool × World σ :=
  let g := isGitRepository env repository w
  if !g.1 then
    (false, emit (Signal.installPodFinished repository pod false) g.2)
  else
    let cwd := g.2.cwd
    let w1 := setCurrent env [repository] g.2
    let r := execute env (Cmd.line (submoduleAddText pod.url pod.name)) w1
    let w2 := setCurrent env [cwd] r.2
    if r.1 ≠ 0 then
      (false, emit (Signal.installPodFinished repository pod false) w2)
    else
      let w3 := writePodInfo env repository pod w2
      let w4 := generatePodsPri env repository w3
      let w5 := generatePodsSubdirsPri env repository w4
      let w6 := generateSubdirsPro env repository w5
      (true, emit (Signal.installPodFinished repository pod true) w6)

/-- The loop of `installPods`, from the value of `success` and the world before a pod. -/
def installPodsLoop (env : Env σ) (repository : String) :
    List Pod → Bool → World σ → Bool × World σ
  | [], success, w => (success, w)
  | pod :: rest, success, w =>
    let r := execute env (Cmd.line (submoduleAddText pod.url pod.name)) w
    let w1 := if r.1 = 0 then writePodInfo env repository pod r.2 else r.2
    installPodsLoop env repository rest (success && decide (r.1 = 0)) w1

/-- The slot `PodManager::installPods`. -/
def installPods (env : Env σ) (repository : String) (pods : List Pod) (w : World σ) :
    Bool × World σ :=
  let g := isGitRepository env repository w
  if !g.1 then
    (false, emit (Signal.installPodsFinished repository pods false) g.2)
  else
    let cwd := g.2.cwd
    let w1 := setCurrent env [repository] g.2
    let l := installPodsLoop env repository pods true w1
    let w2 := setCurrent env [cwd] l.2
    if !l.1 then
      (false, emit (Signal.installPodsFinished repository pods false) w2)
    else
      let w3 := generatePodsPri env repository w2
      let w4 := generatePodsSubdirsPri env repository w3
      let w5 := generateSubdirsPro env repository w4
      (true, emit (Signal.installPodsFinished repository pods true) w5)

/-- The values of `deinitResult`, `remove1Result`, `remove2Result` and the world after
the three gated commands of `removePod`. -/
def removePodSteps (env : Env σ) (repository podName : String) (w : World σ) :
    Int × Int × Int × World σ :=
  let d := execute env (Cmd.submoduleDeinit podName) w
  if d.1 = 0 then
    let r1 := execute env (Cmd.gitRm podName) d.2
    if r1.1 = 0 then
      let r2 := execute env (Cmd.line (rmModulesText repository podName)) r1.2
      (d.1, r1.1, r2.1, r2.2)
    else (d.1, r1.1, -1, r1.2)
  else (d.1, -1, -1, d.2)

/-- The slot `PodManager::removePod`. -/
def removePod (env : Env σ) (repository podName : String) (w : World σ) : Bool × World σ :=
  let g := isGitRepository env repository w
  if !g.1 then
    (false, emit (Signal.removePodFinished repository podName false) g.2)
  else
    let cwd := g.2.cwd
    let w1 := setCurrent env [repository] g.2
    let s := removePodSteps env repository podName w1
    let deinitResult := s.1
    let remove1Result := s.2.1
    let remove2Result := s.2.2.1
    let w2 := setCurrent env [cwd] s.2.2.2
    if deinitResult ≠ 0 ∧ remove1Result ≠ 0 ∧ remove2Result ≠ 0 then
      (false, emit (Signal.removePodFinished repository podName false) w2)
    else
      let w3 := purgePodInfo env repository podName w2
      let w4 := generatePodsPri env repository w3
      let w5 := generatePodsSubdirsPri env repository w4
      let w6 := generateSubdirsPro env repository w5
      (true, emit (Signal.removePodFinished repository podName true) w6)

/-- The values of `deinitResult`, `remove1Result`, `remove2Result` and the world after
the body of the loop of `removePods` up to the update of `success`: the three gated
commands, with `purgePodInfo` after the third. -/
def removePodsSteps (env : Env σ) (repository podName : String) (w : World σ) :
    Int × Int × Int × World σ :=
  let d := execute env (Cmd.submoduleDeinit podName) w
  if d.1 = 0 then
    let r1 := execute env (Cmd.gitRm podName) d.2
    if r1.1 = 0 then
      let r2 := execute env (Cmd.line (rmModulesText repository podName)) r1.2
      (d.1, r1.1, r2.1, purgePodInfo env repository podName r2.2)
    else (d.1, r1.1, -1, r1.2)
  else (d.1, -1, -1, d.2)

/-- The loop of `removePods`, from the value of `success` and the world before a pod. -/
def removePodsLoop (env : Env σ) (repository : String) :
    List String → Bool → World σ → Bool × World σ
  | [], success, w => (success, w)
  | podName :: rest, success, w =>
    let s := removePodsSteps env repository podName w
    removePodsLoop env repository rest
      (success && (decide (s.1 = 0) && decide (s.2.1 = 0) && decide (s.2.2.1 = 0))) s.2.2.2

/-- The slot `PodManager::removePods`. -/
def removePods (env : Env σ) (repository : String) (podNames : List String) (w : World σ) :
    Bool × World σ :=
  let g := isGitRepository env repository w
  if !g.1 then
    (false, emit (Signal.removePodsFinished repository podNames false) g.2)
  else
    let cwd := g.2.cwd
    let w1 := setCurrent env [repository] g.2
    let l := removePodsLoop env repository podNames true w1
    let w2 := setCurrent env [cwd] l.2
    if !l.1 then
      (false, emit (Signal.removePodsFinished repository podNames false) w2)
    else
      let w3 := generatePodsPri env repository w2
      let w4 := generatePodsSubdirsPri env repository w3
      let w5 := generateSubdirsPro env repository w4
      (true, emit (Signal.removePodsFinished repository podNames true) w5)

/-- The values of `stashResult`, `checkoutResult`, `pullResult` and the world after the
three gated commands of `updatePod` and of the loop of `updatePods`. -/
def updateSteps (env : Env σ) (w : World σ) : Int × Int × Int × World σ :=
  let s := execute env Cmd.gitStash w
  if s.1 = 0 then
    let c := execute env Cmd.gitCheckoutMaster s.2
    if c.1 = 0 then
      let p := execute env Cmd.gitPull c.2
      (s.1, c.1, p.1, p.2)
    else (s.1, c.1, 1, c.2)
  else (s.1, 1, 1, s.2)

/-- The slot `PodManager::updatePod`. -/
def updatePod (env : Env σ) (repository podName : String) (w : World σ) : Bool × World σ :=
  let g := isGitRepository env repository w
  if !g.1 then
    (false, emit (Signal.updatePodFinished repository podName false) g.2)
  else
    let cwd := g.2.cwd
    let w1 := setCurrent env [repository, podName] g.2
    let s := updateSteps env w1
    let w2 := setCurrent env [cwd] s.2.2.2
    let result := decide (s.1 = 0) && decide (s.2.1 = 0) && decide (s.2.2.1 = 0)
    (result, emit (Signal.updatePodFinished repository podName result) w2)

/-- The loop of `updatePods`, from the value of `success` and the world before a pod. -/
def updatePodsLoop (env : Env σ) (repository : String) :
    List String → Bool → World σ → Bool × World σ
  | [], success, w => (success, w)
  | podName :: rest, success, w =>
    let w1 := setCurrent env [repository, podName] w
    let s := updateSteps env w1
    updatePodsLoop env repository rest
      (success && (decide (s.1 = 0) && decide (s.2.1 = 0) && decide (s.2.2.1 = 0))) s.2.2.2

/-- The slot `PodManager::updatePods`. -/
def updatePods (env : Env σ) (repository : String) (podNames : List String) (w : World σ) :
    Bool × World σ :=
  let g := isGitRepository env repository w
  if !g.1 then
    (false, emit (Signal.updatePodsFinished repository podNames false) g.2)
  else
    let cwd := g.2.cwd
    let l := updatePodsLoop env repository podNames true g.2
    let w1 := setCurrent env [cwd] l.2
    let w2 := if !l.1 then emit (Signal.updatePodsFinished repository podNames false) w1 else w1
    (true, emit (Signal.updatePodsFinished repository podNames true) w2)

/-- The loop of `updateAllPods`, `result = result && updatePod(repository, pod.name)`:
`updatePod` is called only when `result` is true. -/
def updateAllPodsLoop (env : Env σ) (repository : String) :
    List Pod → Bool → World σ → Bool × World σ
  | [], result, w => (result, w)
  | pod :: rest, result, w =>
    if result then
      let u := updatePod env repository pod.name w
      updateAllPodsLoop env repository rest u.1 u.2
    else updateAllPodsLoop env repository rest false w

/-- The slot `PodManager::updateAllPods`. -/
def updateAllPods (env : Env σ) (repository : String) (w : World σ) : Bool × World σ :=
  let g := isGitRepository env repository w
  if !g.1 then
    (false, emit (Signal.updateAllPodsFinished repository false) g.2)
  else
    let pods := installedPods env repository g.2
    let l := updateAllPodsLoop env repository pods.1 false pods.2
    if !l.1 then
      (false, emit (Signal.updateAllPodsFinished repository false) l.2)
    else
      let w1 := generatePodsPri env repository l.2
      let w2 := generatePodsSubdirsPri env repository w1
      let w3 := generateSubdirsPro env repository w2
      (true, emit (Signal.updateAllPodsFinished repository true) w3)

/-- The case conversion `QString::toLower`, character by character, for a given
lower-case mapping of characters. -/
def toLower (lower : Char → Char) (s : String) : String :=
  String.mk (s.data.map lower)

/-- The value of `isValidPod` in `PodManager::checkPod`: `dir` is `[repository]` and
becomes `[repository, podName]` when `dir.cd(podName)` succeeds. -/
def isValidPod (lower : Char → Char) (env : Env σ) (repository podName : String)
    (w : World σ) : Bool :=
  decide (podName = toLower lower podName) &&
    env.dirExists w.outside [repository, podName] &&
    env.fileExists w.outside [repository, podName, "LICENSE"] &&
    env.fileExists w.outside [repository, podName, "README.md"] &&
    env.fileExists w.outside [repository, podName, podName ++ ".pri"] &&
    env.fileExists w.outside [repository, podName, podName ++ ".pro"]

/-- The slot `PodManager::checkPod`. -/
def checkPod (lower : Char → Char) (env : Env σ) (repository podName : String)
    (w : World σ) : Bool × World σ :=
  let valid := isValidPod lower env repository podName w
  (valid, emit (Signal.checkPodFinished repository podName valid) w)

/-! ## The catalog of available pods -/

/-- A JSON value as `QJsonValue` holds it; `undefined` is what `QJsonObject::value`
returns for a key the object does not have.  An object lists its members in
`QJsonObject::keys()` order. -/
inductive QJsonValue where
  | null
  | bool (b : Bool)
  | number (text : String)
  | string (s : String)
  | array (items : List QJsonValue)
  | object (members : List (String × QJsonValue))
  | undefined

/-- The members of a `QJsonObject`. -/
abbrev QJsonObject := List (String × QJsonValue)

/-- A successfully parsed `QJsonDocument`: an object or an array. -/
inductive QJsonDocument where
  | object (members : QJsonObject)
  | array (items : List QJsonValue)

/-- The call `QJsonDocument::object()`: the empty object when the document is an array. -/
def QJsonDocument.toObject : QJsonDocument → QJsonObject
  | QJsonDocument.object members => members
  | QJsonDocument.array _ => []

/-- The call `QJsonObject::keys()`. -/
def QJsonObject.keys (object : QJsonObject) : List String :=
  object.map Prod.fst

/-- The call `QJsonObject::value(key)`. -/
def QJsonObject.value (object : QJsonObject) (key : String) : QJsonValue :=
  (assoc key object).getD QJsonValue.undefined

/-- The call `QJsonValue::isObject()`. -/
def QJsonValue.isObject : QJsonValue → Bool
  | QJsonValue.object _ => true
  | _ => false

/-- The call `QJsonValue::toObject()`: the empty object for a value of another type. -/
def QJsonValue.toObject : QJsonValue → QJsonObject
  | QJsonValue.object members => members
  | _ => []

/-- The call `QJsonValue::toString()`: the empty string for a value of another type. -/
def QJsonValue.toString : QJsonValue → String
  | QJsonValue.string s => s
  | _ => ""

/-- The pod that the loop over the keys in `availablePods` appends for one key. -/
def catalogPod (object : QJsonObject) (key : String) : Pod :=
  if (QJsonObject.value object key).isObject then
    let metaObject := (QJsonObject.value object key).toObject
    { name := key
      url := (QJsonObject.value metaObject "url").toString
      author := (QJsonObject.value metaObject "author").toString
      description := (QJsonObject.value metaObject "description").toString
      license := (QJsonObject.value metaObject "license").toString }
  else
    { name := key
      url := (QJsonObject.value object key).toString }

/-- The pods that `availablePods` appends for one successfully parsed document. -/
def catalogPods (document : QJsonDocument) : List Pod :=
  let object := document.toObject
  (QJsonObject.keys object).map (catalogPod object)

/-- The network as `availablePods` sees it. -/
structure Remote where
  /-- Whether `networkAccessible()` differs from `QNetworkAccessManager::NotAccessible`. -/
  accessible : Bool
  /-- The bytes `reply->readAll()` returns for the request to a source. -/
  readAll : String → String
  /-- The call `QJsonDocument::fromJson`: `none` when `parseError.error` is not `NoError`. -/
  fromJson : String → Option QJsonDocument

/-- The loop over the sources in `availablePods`. -/
def availablePodsLoop (remote : Remote) : List String → List Pod → List Pod
  | [], pods => pods
  | source :: rest, pods =>
    match remote.fromJson (remote.readAll source) with
    | some document => availablePodsLoop remote rest (pods ++ catalogPods document)
    | none => availablePodsLoop remote rest pods

/-- The slot `PodManager::availablePods`. -/
def availablePods (remote : Remote) (sources : List String) (w : World σ) :
    List Pod × World σ :=
  if !remote.accessible then
    ([], emit (Signal.availablePodsFinished sources []) w)
  else
    let pods := availablePodsLoop remote sources []
    (pods, emit (Signal.availablePodsFinished sources pods) w)

/-! ## Concrete repositories -/

/-- The string a path stands for, its entries joined with `/`. -/
def joinPath : Path → String
  | [] => ""
  | [dir] => dir
  | dir :: rest => dir ++ "/" ++ joinPath rest

/-- An environment over a trivial outside state: a command exits with the status the
table gives it and changes nothing, the listed paths exist, every change of the working
directory succeeds, and the submodule manifest has the given groups. -/
def scriptedEnv (status : Cmd → Int) (present : List Path) (manifest : Settings) : Env Unit where
  execute := fun cmd _ s => (status cmd, s)
  fileExists := fun _ path => decide (path ∈ present)
  dirExists := fun _ path => decide (path ∈ present)
  chdir := fun _ _ path => some (joinPath path)
  gitmodules := fun _ _ => manifest

/-- A world for the repository `/proj`: the process runs in `/home`, `.podinfo` of the
repository has the given groups, no generated file exists yet, every file can be opened,
and nothing has been observed. -/
def projWorld (podinfo : Settings) : World Unit where
  outside := ()
  cwd := "/home"
  settings := fun path => if path = ["/proj", ".podinfo"] then podinfo else []
  files := fun _ => none
  canRemove := fun _ => true
  canOpen := fun _ => true
  trace := []

/-- The files of a git repository `/proj` with a submodule manifest. -/
def projFiles : List Path :=
  [["/proj", ".git"], ["/proj", ".gitmodules"]]

/-- The submodule manifest of a repository whose only pod is `foo`. -/
def fooManifest : Settings :=
  [(["submodule \"foo\"", "path"], "foo"), (["submodule \"foo\"", "url"], "https://x/foo.git")]

/-- The metadata of the pod `foo`. -/
def fooInfo : Settings :=
  [(["foo", "author"], "a"), (["foo", "description"], "d"), (["foo", "license"], "l"),
   (["foo", "website"], "w")]

/-- A repository in which `git rm -rf foo` exits with status 1 and every other command
with status 0. -/
def gitRmFailsEnv : Env Unit :=
  scriptedEnv (fun cmd => if cmd = Cmd.gitRm "foo" then 1 else 0) projFiles fooManifest

/-- A repository in which `git stash` exits with status 1 and every other command with
status 0. -/
def stashFailsEnv : Env Unit :=
  scriptedEnv (fun cmd => if cmd = Cmd.gitStash then 1 else 0) projFiles fooManifest

/-- A repository with the pod `foo` in which every command exits with status 0. -/
def allSucceedEnv : Env Unit :=
  scriptedEnv (fun _ => 0) projFiles fooManifest

/-- A git repository without a submodule manifest in which every command exits with
status 0. -/
def noPodsEnv : Env Unit :=
  scriptedEnv (fun _ => 0) [["/proj", ".git"]] []

/-- A directory `/proj` that is not a git repository. -/
def notGitEnv : Env Unit :=
  scriptedEnv (fun _ => 0) [] []

/-- The events observed on the way from the world `w` to the later world `w'`. -/
def eventsSince (w w' : World σ) : List Event :=
  w'.trace.drop w.trace.length

/-- The submodule manifest of a repository with the pods `a` and `b`. -/
def abManifest : Settings :=
  [(["submodule \"a\"", "path"], "a"), (["submodule \"a\"", "url"], "https://x/a.git"),
   (["submodule \"b\"", "path"], "b"), (["submodule \"b\"", "url"], "https://x/b.git")]

/-- The metadata of the pods `a` and `b`. -/
def abInfo : Settings :=
  [(["a", "author"], "alice"), (["b", "author"], "bob")]

/-- A repository with the pods `a` and `b` in which `git submodule deinit -f b` exits with
status 1 and every other command with status 0. -/
def deinitBFailsEnv : Env Unit :=
  scriptedEnv (fun cmd => if cmd = Cmd.submoduleDeinit "b" then 1 else 0) projFiles abManifest

/-- The pod `foo` with its metadata. -/
def fooPod : Pod :=
  { name := "foo", url := "https://x/foo.git", author := "a", description := "d",
    license := "l", website := "w" }

/-- A git repository in which `git submodule add https://x/foo.git foo` exits with status
128 and every other command with status 0. -/
def addFailsEnv : Env Unit :=
  scriptedEnv
    (fun cmd => if cmd = Cmd.line "git submodule add https://x/foo.git foo" then 128 else 0)
    [["/proj", ".git"]] []

/-- A repository `/proj` with the directories `foo` and `Foo`, each holding `LICENSE`,
`README.md` and the project files named after the directory. -/
def podTreesEnv : Env Unit :=
  scriptedEnv (fun _ => 0)
    [["/proj", ".git"], ["/proj", "foo"], ["/proj", "foo", "LICENSE"],
     ["/proj", "foo", "README.md"], ["/proj", "foo", "foo.pri"], ["/proj", "foo", "foo.pro"],
     ["/proj", "Foo"], ["/proj", "Foo", "LICENSE"], ["/proj", "Foo", "README.md"],
     ["/proj", "Foo", "Foo.pri"], ["/proj", "Foo", "Foo.pro"]] []

/-- The lower-case mapping of the letters `A` to `Z`; every other character is kept. -/
def asciiLower (c : Char) : Char :=
  if 65 ≤ c.toNat ∧ c.toNat ≤ 90 then Char.ofNat (c.toNat + 32) else c

/-- A world for the repository `/proj` in which no file can be opened for writing. -/
def lockedWorld : World Unit where
  outside := ()
  cwd := "/home"
  settings := fun _ => []
  files := fun _ => none
  canRemove := fun _ => true
  canOpen := fun _ => false
  trace := []

/-- A repository with the pods `a` and `b` in which `rm -rf /proj/.git/modules/a` exits
with status 1 and every other command with status 0. -/
def rmModulesFailsEnv : Env Unit :=
  scriptedEnv (fun cmd => if cmd = Cmd.line "rm -rf /proj/.git/modules/a" then 1 else 0)
    projFiles abManifest

/-- A git repository `/proj` with the pod `foo`, over the outside states `true` (the
directory `/proj/foo` exists) and `false` (it does not): every command exits with status
0, `git rm -rf foo` removes the directory, and the working directory can be changed to
`/proj/foo` only while the directory exists. -/
def podDirRemovedEnv : Env Bool where
  execute := fun cmd _ present => (0, if cmd = Cmd.gitRm "foo" then false else present)
  fileExists := fun _ path => decide (path ∈ projFiles)
  dirExists := fun present path =>
    decide (path = ["/proj"]) || (decide (path = ["/proj", "foo"]) && present)
  chdir := fun present _ path =>
    if joinPath path = "/proj/foo" then (if present then some "/proj/foo" else none)
    else some (joinPath path)
  gitmodules := fun _ _ => fooManifest

/-- A world in which the process runs inside the directory of the pod `foo` of `/proj`. -/
def insidePodWorld : World Bool where
  outside := true
  cwd := "/proj/foo"
  settings := fun path => if path = ["/proj", ".podinfo"] then fooInfo else []
  files := fun _ => none
  canRemove := fun _ => true
  canOpen := fun _ => true
  trace := []

/-- The metadata of the pods `libs` and `libs/foo`: `beginGroup("libs/foo")` writes under
the keys `libs/foo/...`, which lie under the group `libs`. -/
def nestedInfo : Settings :=
  [(["libs", "author"], "alice"), (["libs", "foo", "author"], "bob")]

/-- A repository in which `git submodule deinit -f libs/foo` exits with status 1 and every
other command with status 0. -/
def nestedDeinitFailsEnv : Env Unit :=
  scriptedEnv (fun cmd => if cmd = Cmd.submoduleDeinit "libs/foo" then 1 else 0) projFiles []

/-- The reply of the source `https://x/legacy.json`: a document in the legacy format. -/
def legacyReply : String :=
  "\x7b\"foo\": \"https://x/foo.git\"\x7d"

/-- The reply of the source `https://x/pods.json`: a document in the new format. -/
def podsReply : String :=
  "\x7b\"foo\": \x7b\"url\":\"u\",\"author\":\"a\",\"description\":\"d\",\"license\":\"l\"\x7d\x7d"

/-- A reachable network with the two sources `https://x/legacy.json` and
`https://x/pods.json`, and the documents that `QJsonDocument::fromJson` makes of their
replies; every other text is taken not to parse. -/
def catalogRemote : Remote where
  accessible := true
  readAll := fun source =>
    if source = "https://x/legacy.json" then legacyReply
    else if source = "https://x/pods.json" then podsReply
    else ""
  fromJson := fun text =>
    if text = legacyReply then
      some (QJsonDocument.object [("foo", QJsonValue.string "https://x/foo.git")])
    else if text = podsReply then
      some (QJsonDocument.object [("foo", QJsonValue.object
        [("url", QJsonValue.string "u"), ("author", QJsonValue.string "a"),
         ("description", QJsonValue.string "d"), ("license", QJsonValue.string "l")])])
    else none

/-! ## Theorems -/

set_option maxRecDepth 16384

/-! ### The primitive steps -/

@[simp] theorem setAt_same {β : Type} (f : Path → β) (path : Path) (b : β) :
    setAt f path b path = b := by
  simp [setAt]

theorem setAt_other {β : Type} (f : Path → β) (path p : Path) (b : β) (h : p ≠ path) :
    setAt f path b p = f p := by
  simp [setAt, h]

@[simp] theorem emit_trace (signal : Signal) (w : World σ) :
    (emit signal w).trace = w.trace ++ [Event.emitted signal] := rfl

@[simp] theorem emit_settings (signal : Signal) (w : World σ) :
    (emit signal w).settings = w.settings := rfl

@[simp] theorem emit_files (signal : Signal) (w : World σ) :
    (emit signal w).files = w.files := rfl

@[simp] theorem emit_canRemove (signal : Signal) (w : World σ) :
    (emit signal w).canRemove = w.canRemove := rfl

@[simp] theorem emit_canOpen (signal : Signal) (w : World σ) :
    (emit signal w).canOpen = w.canOpen := rfl

@[simp] theorem emit_outside (signal : Signal) (w : World σ) :
    (emit signal w).outside = w.outside := rfl

@[simp] theorem emit_cwd (signal : Signal) (w : World σ) :
    (emit signal w).cwd = w.cwd := rfl

@[simp] theorem setCurrent_trace (env : Env σ) (path : Path) (w : World σ) :
    (setCurrent env path w).trace = w.trace := by
  unfold setCurrent; split <;> rfl

@[simp] theorem setCurrent_settings (env : Env σ) (path : Path) (w : World σ) :
    (setCurrent env path w).settings = w.settings := by
  unfold setCurrent; split <;> rfl

@[simp] theorem setCurrent_files (env : Env σ) (path : Path) (w : World σ) :
    (setCurrent env path w).files = w.files := by
  unfold setCurrent; split <;> rfl

@[simp] theorem setCurrent_canRemove (env : Env σ) (path : Path) (w : World σ) :
    (setCurrent env path w).canRemove = w.canRemove := by
  unfold setCurrent; split <;> rfl

@[simp] theorem setCurrent_canOpen (env : Env σ) (path : Path) (w : World σ) :
    (setCurrent env path w).canOpen = w.canOpen := by
  unfold setCurrent; split <;> rfl

@[simp] theorem setCurrent_outside (env : Env σ) (path : Path) (w : World σ) :
    (setCurrent env path w).outside = w.outside := by
  unfold setCurrent; split <;> rfl

@[simp] theorem execute_trace (env : Env σ) (cmd : Cmd) (w : World σ) :
    (execute env cmd w).2.trace =
      w.trace ++ [Event.executed w.cwd cmd (execute env cmd w).1] := rfl

@[simp] theorem execute_settings (env : Env σ) (cmd : Cmd) (w : World σ) :
    (execute env cmd w).2.settings = w.settings := rfl

@[simp] theorem execute_files (env : Env σ) (cmd : Cmd) (w : World σ) :
    (execute env cmd w).2.files = w.files := rfl

@[simp] theorem execute_canRemove (env : Env σ) (cmd : Cmd) (w : World σ) :
    (execute env cmd w).2.canRemove = w.canRemove := rfl

@[simp] theorem execute_canOpen (env : Env σ) (cmd : Cmd) (w : World σ) :
    (execute env cmd w).2.canOpen = w.canOpen := rfl

@[simp] theorem execute_cwd (env : Env σ) (cmd : Cmd) (w : World σ) :
    (execute env cmd w).2.cwd = w.cwd := rfl

@[simp] theorem stageFile_trace (env : Env σ) (repository : String) (fileName : Path)
    (w : World σ) :
    (stageFile env repository fileName w).trace =
      w.trace ++ [Event.executed (setCurrent env [repository] w).cwd (Cmd.gitAdd fileName)
        (execute env (Cmd.gitAdd fileName) (setCurrent env [repository] w)).1] := by
  simp [stageFile]

@[simp] theorem stageFile_settings (env : Env σ) (repository : String) (fileName : Path)
    (w : World σ) : (stageFile env repository fileName w).settings = w.settings := by
  simp [stageFile]

@[simp] theorem stageFile_files (env : Env σ) (repository : String) (fileName : Path)
    (w : World σ) : (stageFile env repository fileName w).files = w.files := by
  simp [stageFile]

@[simp] theorem stageFile_canRemove (env : Env σ) (repository : String) (fileName : Path)
    (w : World σ) : (stageFile env repository fileName w).canRemove = w.canRemove := by
  simp [stageFile]

@[simp] theorem stageFile_canOpen (env : Env σ) (repository : String) (fileName : Path)
    (w : World σ) : (stageFile env repository fileName w).canOpen = w.canOpen := by
  simp [stageFile]

@[simp] theorem removeFile_trace (path : Path) (w : World σ) :
    (removeFile path w).trace = w.trace := by
  unfold removeFile; split <;> rfl

@[simp] theorem removeFile_settings (path : Path) (w : World σ) :
    (removeFile path w).settings = w.settings := by
  unfold removeFile; split <;> rfl

@[simp] theorem removeFile_canRemove (path : Path) (w : World σ) :
    (removeFile path w).canRemove = w.canRemove := by
  unfold removeFile; split <;> rfl

@[simp] theorem removeFile_canOpen (path : Path) (w : World σ) :
    (removeFile path w).canOpen = w.canOpen := by
  unfold removeFile; split <;> rfl

@[simp] theorem removeFile_outside (path : Path) (w : World σ) :
    (removeFile path w).outside = w.outside := by
  unfold removeFile; split <;> rfl

@[simp] theorem removeFile_cwd (path : Path) (w : World σ) :
    (removeFile path w).cwd = w.cwd := by
  unfold removeFile; split <;> rfl

@[simp] theorem writeFile_trace (path : Path) (data : String) (w : World σ) :
    (writeFile path data w).trace = w.trace := rfl

@[simp] theorem writeFile_settings (path : Path) (data : String) (w : World σ) :
    (writeFile path data w).settings = w.settings := rfl

@[simp] theorem writeFile_canRemove (path : Path) (data : String) (w : World σ) :
    (writeFile path data w).canRemove = w.canRemove := rfl

@[simp] theorem writeFile_canOpen (path : Path) (data : String) (w : World σ) :
    (writeFile path data w).canOpen = w.canOpen := rfl

@[simp] theorem writeFile_outside (path : Path) (data : String) (w : World σ) :
    (writeFile path data w).outside = w.outside := rfl

@[simp] theorem writeFile_cwd (path : Path) (data : String) (w : World σ) :
    (writeFile path data w).cwd = w.cwd := rfl

theorem eventsSince_append (w w' : World σ) (T : List Event) (h : w'.trace = w.trace ++ T) :
    eventsSince w w' = T := by
  simp [eventsSince, h]

/-! ### The generators -/

theorem generatePodsPri_trace (env : Env σ) (repository : String) (w : World σ) :
    ∃ c a, (generatePodsPri env repository w).trace = w.trace ++
      [Event.emitted (Signal.installedPodsFinished repository (installedPodList env repository w)),
       Event.executed c (Cmd.gitAdd [repository, "pods.pri"]) a,
       Event.emitted (Signal.generatePodsPriFinished repository)] := by
  simp only [generatePodsPri, installedPods, emit_trace, stageFile_trace, List.append_assoc,
    List.cons_append, List.nil_append]
  split <;>
    (simp only [writeFile_trace, removeFile_trace, emit_trace, List.append_assoc,
      List.cons_append, List.nil_append]; exact ⟨_, _, rfl⟩)

@[simp] theorem generatePodsPri_settings (env : Env σ) (repository : String) (w : World σ) :
    (generatePodsPri env repository w).settings = w.settings := by
  simp only [generatePodsPri, installedPods, emit_settings, stageFile_settings]
  split <;> simp

@[simp] theorem generatePodsPri_canOpen (env : Env σ) (repository : String) (w : World σ) :
    (generatePodsPri env repository w).canOpen = w.canOpen := by
  simp only [generatePodsPri, installedPods, emit_canOpen, stageFile_canOpen]
  split <;> simp

@[simp] theorem generatePodsPri_canRemove (env : Env σ) (repository : String) (w : World σ) :
    (generatePodsPri env repository w).canRemove = w.canRemove := by
  simp only [generatePodsPri, installedPods, emit_canRemove, stageFile_canRemove]
  split <;> simp

theorem generatePodsSubdirsPri_trace (env : Env σ) (repository : String) (w : World σ) :
    ∃ c a, (generatePodsSubdirsPri env repository w).trace = w.trace ++
      [Event.emitted (Signal.installedPodsFinished repository (installedPodList env repository w)),
       Event.executed c (Cmd.gitAdd [repository, "pods-subdirs.pri"]) a,
       Event.emitted (Signal.generatePodsSubdirsPriFinished repository)] := by
  simp only [generatePodsSubdirsPri, installedPods, emit_trace, stageFile_trace,
    List.append_assoc, List.cons_append, List.nil_append]
  split <;>
    (simp only [writeFile_trace, removeFile_trace, emit_trace, List.append_assoc,
      List.cons_append, List.nil_append]; exact ⟨_, _, rfl⟩)

@[simp] theorem generatePodsSubdirsPri_settings (env : Env σ) (repository : String)
    (w : World σ) : (generatePodsSubdirsPri env repository w).settings = w.settings := by
  simp only [generatePodsSubdirsPri, installedPods, emit_settings, stageFile_settings]
  split <;> simp

@[simp] theorem generatePodsSubdirsPri_canOpen (env : Env σ) (repository : String)
    (w : World σ) : (generatePodsSubdirsPri env repository w).canOpen = w.canOpen := by
  simp only [generatePodsSubdirsPri, installedPods, emit_canOpen, stageFile_canOpen]
  split <;> simp

theorem generateSubdirsPro_trace (env : Env σ) (repository : String) (w : World σ) :
    ∃ c a, (generateSubdirsPro env repository w).trace = w.trace ++
      [Event.executed c (Cmd.gitAdd (subdirsProPath repository)) a,
       Event.emitted (Signal.generateSubdirsProFinished repository)] := by
  simp only [generateSubdirsPro, emit_trace, stageFile_trace, List.append_assoc,
    List.cons_append, List.nil_append]
  split
  · exact ⟨_, _, rfl⟩
  · split
    · simp only [writeFile_trace]
      exact ⟨_, _, rfl⟩
    · exact ⟨_, _, rfl⟩

@[simp] theorem generateSubdirsPro_settings (env : Env σ) (repository : String) (w : World σ) :
    (generateSubdirsPro env repository w).settings = w.settings := by
  simp only [generateSubdirsPro, emit_settings, stageFile_settings]
  split
  · rfl
  · split <;> rfl

@[simp] theorem generateSubdirsPro_canOpen (env : Env σ) (repository : String) (w : World σ) :
    (generateSubdirsPro env repository w).canOpen = w.canOpen := by
  simp only [generateSubdirsPro, emit_canOpen, stageFile_canOpen]
  split
  · rfl
  · split <;> rfl

theorem regenerate_trace (env : Env σ) (repository : String) (w : World σ) :
    ∃ pods1 c1 a1 pods2 c2 a2 c3 a3,
      (generateSubdirsPro env repository
        (generatePodsSubdirsPri env repository (generatePodsPri env repository w))).trace =
      w.trace ++
        [Event.emitted (Signal.installedPodsFinished repository pods1),
         Event.executed c1 (Cmd.gitAdd [repository, "pods.pri"]) a1,
         Event.emitted (Signal.generatePodsPriFinished repository),
         Event.emitted (Signal.installedPodsFinished repository pods2),
         Event.executed c2 (Cmd.gitAdd [repository, "pods-subdirs.pri"]) a2,
         Event.emitted (Signal.generatePodsSubdirsPriFinished repository),
         Event.executed c3 (Cmd.gitAdd (subdirsProPath repository)) a3,
         Event.emitted (Signal.generateSubdirsProFinished repository)] := by
  obtain ⟨c1, a1, h1⟩ := generatePodsPri_trace env repository w
  obtain ⟨c2, a2, h2⟩ := generatePodsSubdirsPri_trace env repository
    (generatePodsPri env repository w)
  obtain ⟨c3, a3, h3⟩ := generateSubdirsPro_trace env repository
    (generatePodsSubdirsPri env repository (generatePodsPri env repository w))
  refine ⟨installedPodList env repository w, c1, a1,
    installedPodList env repository (generatePodsPri env repository w), c2, a2, c3, a3, ?_⟩
  rw [h3, h2, h1]
  simp only [List.append_assoc, List.cons_append, List.nil_append]

/-! ### The metadata store -/

theorem group_eq_none_iff (s : Settings) (n : String) :
    Settings.group s n = none ↔
      ∀ entry ∈ s, (segments n).isPrefixOf entry.1 = false := by
  unfold Settings.group
  split
  · rename_i h
    rw [List.filterMap_eq_nil_iff] at h
    constructor
    · intro _ entry he
      have := h entry he
      by_cases hp : (segments n).isPrefixOf entry.1 = true
      · rw [if_pos hp] at this
        cases this
      · exact Bool.eq_false_iff.mpr hp
    · intro _; rfl
  · rename_i entry rest h
    constructor
    · intro hc; cases hc
    · intro hall
      exfalso
      have hne : List.filterMap (fun entry =>
          if (segments n).isPrefixOf entry.1 = true then
            some (List.drop (segments n).length entry.1, entry.2)
          else none) s = [] := by
        rw [List.filterMap_eq_nil_iff]
        intro e he
        rw [if_neg (by rw [hall e he]; exact Bool.false_ne_true)]
      rw [hne] at h
      cases h

theorem group_remove_covered (x n : String) (s : Settings)
    (h : segments x <+: segments n) :
    Settings.group (Settings.remove x s) n = none := by
  rw [group_eq_none_iff]
  intro entry he
  simp only [Settings.remove, List.mem_filter, Bool.not_eq_true'] at he
  by_cases hp : (segments n).isPrefixOf entry.1 = true
  · exfalso
    rw [List.isPrefixOf_iff_prefix] at hp
    have hx : (segments x).isPrefixOf entry.1 = true :=
      List.isPrefixOf_iff_prefix.mpr (h.trans hp)
    rw [hx] at he
    exact Bool.noConfusion he.2
  · exact Bool.eq_false_iff.mpr hp

theorem group_remove_none (x n : String) (s : Settings)
    (h : Settings.group s n = none) :
    Settings.group (Settings.remove x s) n = none := by
  rw [group_eq_none_iff] at h ⊢
  intro entry he
  simp only [Settings.remove, List.mem_filter] at he
  exact h entry he.1

theorem group_remove_apart (x n : String) (s : Settings)
    (h : ¬ overlap x n) :
    Settings.group (Settings.remove x s) n = Settings.group s n := by
  have hx : ¬ segments x <+: segments n := fun hc => h (Or.inl hc)
  have hn : ¬ segments n <+: segments x := fun hc => h (Or.inr hc)
  have key : List.filterMap (fun entry : List String × String =>
        if (segments n).isPrefixOf entry.1 = true then
          some (List.drop (segments n).length entry.1, entry.2)
        else none) (Settings.remove x s) =
      List.filterMap (fun entry : List String × String =>
        if (segments n).isPrefixOf entry.1 = true then
          some (List.drop (segments n).length entry.1, entry.2)
        else none) s := by
    induction s with
    | nil => rfl
    | cons e rest ih =>
      unfold Settings.remove at ih ⊢
      rw [List.filter_cons]
      cases hp : (segments x).isPrefixOf e.1
      · rw [if_pos (by rfl), List.filterMap_cons, List.filterMap_cons, ih]
      · have hq : ¬ (segments n).isPrefixOf e.1 = true := by
          intro hq
          rcases List.prefix_or_prefix_of_prefix (List.isPrefixOf_iff_prefix.mp hp)
            (List.isPrefixOf_iff_prefix.mp hq) with h1 | h1
          · exact hx h1
          · exact hn h1
        rw [if_neg (by simp), List.filterMap_cons, if_neg hq, ih]
  unfold Settings.group
  rw [key]

theorem find_store_same (key : List String) (value : String) (s : Settings) :
    Settings.find key (Settings.store key value s) = some value := by
  induction s with
  | nil => simp [Settings.store, Settings.find]
  | cons e rest ih =>
    obtain ⟨k, v⟩ := e
    by_cases hk : k = key
    · simp [Settings.store, Settings.find, hk]
    · simp [Settings.store, Settings.find, hk, ih]

theorem find_store_other (key other : List String) (value : String) (s : Settings)
    (h : other ≠ key) :
    Settings.find other (Settings.store key value s) = Settings.find other s := by
  induction s with
  | nil => simp [Settings.store, Settings.find, h.symm]
  | cons e rest ih =>
    obtain ⟨k, v⟩ := e
    by_cases hk : k = key
    · have hko : ¬ k = other := fun hc => h (hc.symm.trans hk)
      simp [Settings.store, Settings.find, hk, hko, h.symm]
    · by_cases hko : k = other
      · subst hko
        simp [Settings.store, Settings.find, h]
      · simp [Settings.store, Settings.find, hk, hko, ih]

theorem value_setValue_same (group key value : String) (s : Settings) :
    Settings.value (Settings.setValue group key value s) group key = value := by
  simp [Settings.value, Settings.setValue, find_store_same]

theorem value_setValue_other (group key value other : String) (s : Settings)
    (h : segments other ≠ segments key) :
    Settings.value (Settings.setValue group key value s) group other =
      Settings.value s group other := by
  have hk : segments group ++ segments other ≠ segments group ++ segments key :=
    fun hc => h (List.append_cancel_left hc)
  simp [Settings.value, Settings.setValue, find_store_other _ _ _ _ hk]

theorem setCurrent_emit (env : Env σ) (path : Path) (signal : Signal) (w : World σ) :
    setCurrent env path (emit signal w) = emit signal (setCurrent env path w) := by
  simp only [setCurrent, emit]
  split <;> rfl

theorem writePodInfo_trace (env : Env σ) (repository : String) (pod : Pod) (w : World σ) :
    ∃ c a, (writePodInfo env repository pod w).trace =
      w.trace ++ [Event.executed c (Cmd.gitAdd [".podinfo"]) a] := by
  simp only [writePodInfo, stageFile_trace]
  exact ⟨_, _, rfl⟩

/-! ### Repositories that are not under version control -/

/-- C1: on a repository without a `.git` entry, each of `installPod`, `installPods`,
`removePod`, `removePods`, `updatePod`, `updatePods` and `updateAllPods` returns false, and
the world afterwards is the world before with two more events, the signal of the
repository check and the completion signal with `success = false`: no external command
has run, and no metadata and no file has been written. -/
theorem not_git_repository_fails (env : Env σ) (repository : String) (pod : Pod)
    (pods : List Pod) (podName : String) (podNames : List String) (w : World σ)
    (h : env.fileExists w.outside [repository, ".git"] = false) :
    installPod env repository pod w =
      (false, { w with trace := w.trace ++
        [Event.emitted (Signal.isGitRepositoryFinished repository false),
         Event.emitted (Signal.installPodFinished repository pod false)] }) ∧
    installPods env repository pods w =
      (false, { w with trace := w.trace ++
        [Event.emitted (Signal.isGitRepositoryFinished repository false),
         Event.emitted (Signal.installPodsFinished repository pods false)] }) ∧
    removePod env repository podName w =
      (false, { w with trace := w.trace ++
        [Event.emitted (Signal.isGitRepositoryFinished repository false),
         Event.emitted (Signal.removePodFinished repository podName false)] }) ∧
    removePods env repository podNames w =
      (false, { w with trace := w.trace ++
        [Event.emitted (Signal.isGitRepositoryFinished repository false),
         Event.emitted (Signal.removePodsFinished repository podNames false)] }) ∧
    updatePod env repository podName w =
      (false, { w with trace := w.trace ++
        [Event.emitted (Signal.isGitRepositoryFinished repository false),
         Event.emitted (Signal.updatePodFinished repository podName false)] }) ∧
    updatePods env repository podNames w =
      (false, { w with trace := w.trace ++
        [Event.emitted (Signal.isGitRepositoryFinished repository false),
         Event.emitted (Signal.updatePodsFinished repository podNames false)] }) ∧
    updateAllPods env repository w =
      (false, { w with trace := w.trace ++
        [Event.emitted (Signal.isGitRepositoryFinished repository false),
         Event.emitted (Signal.updateAllPodsFinished repository false)] }) := by
  simp [installPod, installPods, removePod, removePods, updatePod, updatePods, updateAllPods,
    isGitRepository, emit, h]

/-- C1, on the directory `/proj` without `.git`: `removePods` returns false and only its
two signals are observed. -/
theorem not_git_repository_fails_witness :
    notGitEnv.fileExists (projWorld fooInfo).outside ["/proj", ".git"] = false ∧
    (removePods notGitEnv "/proj" ["foo"] (projWorld fooInfo)).1 = false ∧
    (removePods notGitEnv "/proj" ["foo"] (projWorld fooInfo)).2.trace =
      [Event.emitted (Signal.isGitRepositoryFinished "/proj" false),
       Event.emitted (Signal.removePodsFinished "/proj" ["foo"] false)] :=
  have h := (not_git_repository_fails notGitEnv "/proj" {} [] "foo" ["foo"]
    (projWorld fooInfo) rfl).2.2.2.1
  ⟨rfl, congrArg Prod.fst h, (congrArg (fun r => r.2.trace) h).trans rfl⟩

/-! ### Defects of the single removal and of the batch updates -/

theorem removePodSteps_fst (env : Env σ) (repository podName : String) (w : World σ) :
    (removePodSteps env repository podName w).1 =
      (execute env (Cmd.submoduleDeinit podName) w).1 := by
  unfold removePodSteps
  simp only
  split
  · split <;> rfl
  · rfl

theorem removePodSteps_failed (env : Env σ) (repository podName : String) (w : World σ)
    (h : (execute env (Cmd.submoduleDeinit podName) w).1 ≠ 0) :
    (removePodSteps env repository podName w).2.1 = -1 ∧
    (removePodSteps env repository podName w).2.2.1 = -1 := by
  simp [removePodSteps, h]

theorem removePod_true_iff_deinit (env : Env σ) (repository podName : String) (w : World σ)
    (hgit : env.fileExists w.outside [repository, ".git"] = true) :
    (removePod env repository podName w).1 = true ↔
      (execute env (Cmd.submoduleDeinit podName) (setCurrent env [repository] w)).1 = 0 := by
  have hd : (execute env (Cmd.submoduleDeinit podName)
      (setCurrent env [repository]
        (emit (Signal.isGitRepositoryFinished repository true) w))).1 =
      (execute env (Cmd.submoduleDeinit podName) (setCurrent env [repository] w)).1 := by
    rw [setCurrent_emit]; rfl
  by_cases h : (execute env (Cmd.submoduleDeinit podName)
      (setCurrent env [repository] w)).1 = 0
  · have h2 := hd.trans h
    simp [removePod, isGitRepository, hgit, removePodSteps_fst, h, h2]
  · have h2 : (execute env (Cmd.submoduleDeinit podName)
        (setCurrent env [repository]
          (emit (Signal.isGitRepositoryFinished repository true) w))).1 ≠ 0 := by
      rw [hd]; exact h
    have h3 := removePodSteps_failed env repository podName _ h2
    simp [removePod, isGitRepository, hgit, removePodSteps_fst, h, h2, h3.1, h3.2]

theorem updatePods_returns_true (env : Env σ) (repository : String) (podNames : List String)
    (w : World σ) (hgit : env.fileExists w.outside [repository, ".git"] = true) :
    (updatePods env repository podNames w).1 = true := by
  simp [updatePods, isGitRepository, hgit]

theorem updateAllPodsLoop_false (env : Env σ) (repository : String) (pods : List Pod) :
    ∀ w : World σ, updateAllPodsLoop env repository pods false w = (false, w) := by
  induction pods with
  | nil => intro w; rfl
  | cons pod rest ih => intro w; simp [updateAllPodsLoop, ih]

theorem updateAllPods_returns_false (env : Env σ) (repository : String) (w : World σ) :
    (updateAllPods env repository w).1 = false := by
  unfold updateAllPods
  simp only [updateAllPodsLoop_false]
  split <;> simp

/-- C2, at the failing input: `git submodule deinit -f foo` exits with 0 and
`git rm -rf foo` with 1 (so that `rm -rf /proj/.git/modules/foo` is never run), yet
`removePod` returns true, announces success, purges the metadata of `foo` and
regenerates `pods.pri`. -/
theorem removePod_reports_success_when_git_rm_fails :
    (removePod gitRmFailsEnv "/proj" "foo" (projWorld fooInfo)).1 = true ∧
    Settings.group (projWorld fooInfo |>.settings ["/proj", ".podinfo"]) "foo" ≠ none ∧
    Settings.group
      ((removePod gitRmFailsEnv "/proj" "foo" (projWorld fooInfo)).2.settings
        ["/proj", ".podinfo"]) "foo" = none ∧
    (removePod gitRmFailsEnv "/proj" "foo" (projWorld fooInfo)).2.files ["/proj", "pods.pri"] =
      some (podsPriText [{ name := "foo", url := "https://x/foo.git" }]) ∧
    (removePod gitRmFailsEnv "/proj" "foo" (projWorld fooInfo)).2.trace =
      [Event.emitted (Signal.isGitRepositoryFinished "/proj" true),
       Event.executed "/proj" (Cmd.submoduleDeinit "foo") 0,
       Event.executed "/proj" (Cmd.gitRm "foo") 1,
       Event.executed "/proj" (Cmd.gitAdd [".podinfo"]) 0,
       Event.emitted (Signal.installedPodsFinished "/proj"
         [{ name := "foo", url := "https://x/foo.git" }]),
       Event.executed "/proj" (Cmd.gitAdd ["/proj", "pods.pri"]) 0,
       Event.emitted (Signal.generatePodsPriFinished "/proj"),
       Event.emitted (Signal.installedPodsFinished "/proj"
         [{ name := "foo", url := "https://x/foo.git" }]),
       Event.executed "/proj" (Cmd.gitAdd ["/proj", "pods-subdirs.pri"]) 0,
       Event.emitted (Signal.generatePodsSubdirsPriFinished "/proj"),
       Event.executed "/proj" (Cmd.gitAdd ["/proj", "proj.pro"]) 0,
       Event.emitted (Signal.generateSubdirsProFinished "/proj"),
       Event.emitted (Signal.removePodFinished "/proj" "foo" true)] :=
  ⟨rfl, by decide, rfl, rfl, rfl⟩


/-- C3, at the failing input: `git stash` exits with 1 for the only pod of the list, yet
`updatePods` returns true, and after the completion signal with `success = false` it
emits a second one with `success = true`. -/
theorem updatePods_reports_success_when_stash_fails :
    (updatePods stashFailsEnv "/proj" ["foo"] (projWorld fooInfo)).1 = true ∧
    (updatePods stashFailsEnv "/proj" ["foo"] (projWorld fooInfo)).2.trace =
      [Event.emitted (Signal.isGitRepositoryFinished "/proj" true),
       Event.executed "/proj/foo" Cmd.gitStash 1,
       Event.emitted (Signal.updatePodsFinished "/proj" ["foo"] false),
       Event.emitted (Signal.updatePodsFinished "/proj" ["foo"] true)] :=
  ⟨rfl, rfl⟩

/-- C4, at the failing inputs: in a git repository whose pod `foo` would update without
error, and in a git repository without pods, `updateAllPods` returns false, runs no
command, regenerates no file, and announces `success = false`. -/
theorem updateAllPods_reports_failure_when_all_succeed :
    (updateAllPods allSucceedEnv "/proj" (projWorld fooInfo)).1 = false ∧
    (updateAllPods allSucceedEnv "/proj" (projWorld fooInfo)).2.trace =
      [Event.emitted (Signal.isGitRepositoryFinished "/proj" true),
       Event.emitted (Signal.installedPodsFinished "/proj"
         [{ name := "foo", url := "https://x/foo.git", author := "a", description := "d",
            license := "l", website := "w" }]),
       Event.emitted (Signal.updateAllPodsFinished "/proj" false)] ∧
    (updateAllPods allSucceedEnv "/proj" (projWorld fooInfo)).2.files ["/proj", "pods.pri"] =
      none ∧
    (updateAllPods noPodsEnv "/proj" (projWorld [])).1 = false ∧
    (updateAllPods noPodsEnv "/proj" (projWorld [])).2.trace =
      [Event.emitted (Signal.isGitRepositoryFinished "/proj" true),
       Event.emitted (Signal.installedPodsFinished "/proj" []),
       Event.emitted (Signal.updateAllPodsFinished "/proj" false)] :=
  ⟨rfl, rfl, rfl, rfl, rfl⟩

/-! ### Batch removal -/

theorem removePodsSteps_files (env : Env σ) (repository x : String) (w : World σ) :
    (removePodsSteps env repository x w).2.2.2.files = w.files := by
  unfold removePodsSteps
  simp only
  split
  · split <;> simp [purgePodInfo]
  · simp

theorem removePodsSteps_cases (env : Env σ) (repository x : String) (w : World σ) :
    ((removePodsSteps env repository x w).1 ≠ 0 ∧
      (removePodsSteps env repository x w).2.2.2.settings = w.settings ∧
      ∃ c, (removePodsSteps env repository x w).2.2.2.trace =
        w.trace ++ [Event.executed c (Cmd.submoduleDeinit x)
          (removePodsSteps env repository x w).1]) ∨
    ((removePodsSteps env repository x w).1 = 0 ∧
      (removePodsSteps env repository x w).2.1 ≠ 0 ∧
      (removePodsSteps env repository x w).2.2.2.settings = w.settings ∧
      ∃ c1 c2, (removePodsSteps env repository x w).2.2.2.trace =
        w.trace ++ [Event.executed c1 (Cmd.submoduleDeinit x) 0,
          Event.executed c2 (Cmd.gitRm x) (removePodsSteps env repository x w).2.1]) ∨
    ((removePodsSteps env repository x w).1 = 0 ∧
      (removePodsSteps env repository x w).2.1 = 0 ∧
      (removePodsSteps env repository x w).2.2.2.settings =
        setAt w.settings [repository, ".podinfo"]
          (Settings.remove x (w.settings [repository, ".podinfo"])) ∧
      ∃ c1 c2 c3 c4 a, (removePodsSteps env repository x w).2.2.2.trace =
        w.trace ++ [Event.executed c1 (Cmd.submoduleDeinit x) 0,
          Event.executed c2 (Cmd.gitRm x) 0,
          Event.executed c3 (Cmd.line (rmModulesText repository x))
            (removePodsSteps env repository x w).2.2.1,
          Event.executed c4 (Cmd.gitAdd [".podinfo"]) a]) := by
  unfold removePodsSteps
  simp only
  by_cases hd : (execute env (Cmd.submoduleDeinit x) w).1 = 0
  · by_cases hr : (execute env (Cmd.gitRm x) (execute env (Cmd.submoduleDeinit x) w).2).1 = 0
    · right; right
      simp only [hd, hr, if_true]
      refine ⟨trivial, trivial, ?_, ?_⟩
      · simp [purgePodInfo]
      · simp only [purgePodInfo, stageFile_trace, execute_trace, hd, hr, List.append_assoc,
          List.cons_append, List.nil_append]
        exact ⟨_, _, _, _, _, rfl⟩
    · right; left
      simp only [hd, hr, if_true, if_false]
      refine ⟨trivial, hr, ?_, ?_⟩
      · simp
      · simp only [execute_trace, hd, List.append_assoc, List.cons_append, List.nil_append]
        exact ⟨_, _, rfl⟩
  · left
    simp only [hd, if_false]
    exact ⟨hd, by simp, _, rfl⟩

theorem removePodsSteps_spec (env : Env σ) (repository x : String) (w : World σ) :
    ∃ T : List Event,
      (removePodsSteps env repository x w).2.2.2.trace = w.trace ++ T ∧
      (removePodsSteps env repository x w).2.2.2.files = w.files ∧
      (∀ e ∈ T, ∃ cwd cmd status, e = Event.executed cwd cmd status) ∧
      (∀ n, Settings.group (w.settings [repository, ".podinfo"]) n = none →
        Settings.group
          ((removePodsSteps env repository x w).2.2.2.settings [repository, ".podinfo"]) n = none) ∧
      (∀ y n c, Event.executed c (Cmd.gitRm y) 0 ∈ T → segments y <+: segments n →
        Settings.group
          ((removePodsSteps env repository x w).2.2.2.settings [repository, ".podinfo"]) n = none) ∧
      (∀ n, (∀ y c, Event.executed c (Cmd.gitRm y) 0 ∈ T → ¬ overlap y n) →
        Settings.group
          ((removePodsSteps env repository x w).2.2.2.settings [repository, ".podinfo"]) n =
          Settings.group (w.settings [repository, ".podinfo"]) n) ∧
      (∀ n c status, Event.executed c (Cmd.gitRm n) status ∈ T →
        ∃ c0, Event.executed c0 (Cmd.submoduleDeinit n) 0 ∈ T) ∧
      ((decide ((removePodsSteps env repository x w).1 = 0) &&
          decide ((removePodsSteps env repository x w).2.1 = 0) &&
          decide ((removePodsSteps env repository x w).2.2.1 = 0)) = true →
        ∀ cwd n status, Event.executed cwd (Cmd.submoduleDeinit n) status ∈ T → status = 0) ∧
      (∃ cwd status, Event.executed cwd (Cmd.submoduleDeinit x) status ∈ T) := by
  rcases removePodsSteps_cases env repository x w with
    ⟨hd, hs, c, ht⟩ | ⟨hd, hr, hs, c1, c2, ht⟩ | ⟨hd, hr, hs, c1, c2, c3, c4, a, ht⟩
  · refine ⟨_, ht, removePodsSteps_files env repository x w, ?_, ?_, ?_, ?_, ?_, ?_, ?_⟩
    · intro e he; simp at he; exact ⟨_, _, _, he⟩
    · intro n h; rw [hs]; exact h
    · intro y n c h; simp at h
    · intro n _; rw [hs]
    · intro n c status h; simp at h
    · intro h; simp [hd] at h
    · exact ⟨c, _, List.mem_singleton.mpr rfl⟩
  · refine ⟨_, ht, removePodsSteps_files env repository x w, ?_, ?_, ?_, ?_, ?_, ?_, ?_⟩
    · intro e he
      simp at he
      rcases he with he | he
      · exact ⟨_, _, _, he⟩
      · exact ⟨_, _, _, he⟩
    · intro n h; rw [hs]; exact h
    · intro y n c h
      simp at h
      exact absurd h.2.2.symm hr
    · intro n _; rw [hs]
    · intro n c status h
      simp at h
      exact ⟨c1, by simp [h.2.1]⟩
    · intro h; simp [hr] at h
    · exact ⟨c1, 0, List.mem_cons_self _ _⟩
  · refine ⟨_, ht, removePodsSteps_files env repository x w, ?_, ?_, ?_, ?_, ?_, ?_, ?_⟩
    · intro e he
      simp at he
      rcases he with he | he | he | he
      · exact ⟨_, _, _, he⟩
      · exact ⟨_, _, _, he⟩
      · exact ⟨_, _, _, he⟩
      · exact ⟨_, _, _, he⟩
    · intro n h
      rw [hs, setAt_same]
      exact group_remove_none x n _ h
    · intro y n c h hp
      simp at h
      rw [hs, setAt_same]
      exact group_remove_covered x n _ (h.2 ▸ hp)
    · intro n h
      rw [hs, setAt_same]
      exact group_remove_apart x n _ (h x c2 (by simp))
    · intro n c status h
      simp at h
      exact ⟨c1, by simp [h.2.1]⟩
    · intro _ cwd n status h
      simp at h
      exact h.2.2
    · exact ⟨c1, 0, List.mem_cons_self _ _⟩

theorem removePodsLoop_spec (env : Env σ) (repository : String) (names : List String) :
    ∀ (success : Bool) (w : World σ), ∃ T : List Event,
      (removePodsLoop env repository names success w).2.trace = w.trace ++ T ∧
      (removePodsLoop env repository names success w).2.files = w.files ∧
      (∀ e ∈ T, ∃ cwd cmd status, e = Event.executed cwd cmd status) ∧
      (∀ n, Settings.group (w.settings [repository, ".podinfo"]) n = none →
        Settings.group
          ((removePodsLoop env repository names success w).2.settings [repository, ".podinfo"]) n
            = none) ∧
      (∀ y n c, Event.executed c (Cmd.gitRm y) 0 ∈ T → segments y <+: segments n →
        Settings.group
          ((removePodsLoop env repository names success w).2.settings [repository, ".podinfo"]) n
            = none) ∧
      (∀ n, (∀ y c, Event.executed c (Cmd.gitRm y) 0 ∈ T → ¬ overlap y n) →
        Settings.group
          ((removePodsLoop env repository names success w).2.settings [repository, ".podinfo"]) n
            = Settings.group (w.settings [repository, ".podinfo"]) n) ∧
      (∀ n c status, Event.executed c (Cmd.gitRm n) status ∈ T →
        ∃ c0, Event.executed c0 (Cmd.submoduleDeinit n) 0 ∈ T) ∧
      ((removePodsLoop env repository names success w).1 = true →
        success = true ∧
        ∀ cwd n status, Event.executed cwd (Cmd.submoduleDeinit n) status ∈ T → status = 0) ∧
      (∀ n ∈ names, ∃ cwd status, Event.executed cwd (Cmd.submoduleDeinit n) status ∈ T) := by
  induction names with
  | nil =>
    intro success w
    exact ⟨[], by simp [removePodsLoop], by simp [removePodsLoop], by simp,
      by simp [removePodsLoop], by simp, by simp [removePodsLoop], by simp,
      by simp [removePodsLoop], by simp⟩
  | cons x rest ih =>
    intro success w
    obtain ⟨Ts, s1, s2, s3, s4, s5, s6, s7, s8, s9⟩ := removePodsSteps_spec env repository x w
    obtain ⟨Tr, r1, r2, r3, r4, r5, r6, r7, r8, r9⟩ :=
      ih (success && (decide ((removePodsSteps env repository x w).1 = 0) &&
          decide ((removePodsSteps env repository x w).2.1 = 0) &&
          decide ((removePodsSteps env repository x w).2.2.1 = 0)))
        (removePodsSteps env repository x w).2.2.2
    simp only [removePodsLoop]
    refine ⟨Ts ++ Tr, ?_, ?_, ?_, ?_, ?_, ?_, ?_, ?_, ?_⟩
    · rw [r1, s1, List.append_assoc]
    · rw [r2, s2]
    · intro e he
      rcases List.mem_append.mp he with he | he
      · exact s3 e he
      · exact r3 e he
    · intro n h
      exact r4 n (s4 n h)
    · intro y n c h hp
      rcases List.mem_append.mp h with h | h
      · exact r4 n (s5 y n c h hp)
      · exact r5 y n c h hp
    · intro n h
      have hs : ∀ y c, Event.executed c (Cmd.gitRm y) 0 ∈ Ts → ¬ overlap y n :=
        fun y c hm => h y c (List.mem_append.mpr (Or.inl hm))
      have hr : ∀ y c, Event.executed c (Cmd.gitRm y) 0 ∈ Tr → ¬ overlap y n :=
        fun y c hm => h y c (List.mem_append.mpr (Or.inr hm))
      exact (r6 n hr).trans (s6 n hs)
    · intro n c status h
      rcases List.mem_append.mp h with h | h
      · obtain ⟨c0, h0⟩ := s7 n c status h
        exact ⟨c0, List.mem_append.mpr (Or.inl h0)⟩
      · obtain ⟨c0, h0⟩ := r7 n c status h
        exact ⟨c0, List.mem_append.mpr (Or.inr h0)⟩
    · intro h
      obtain ⟨h1, h2⟩ := r8 h
      rw [Bool.and_eq_true] at h1
      refine ⟨h1.1, ?_⟩
      intro cwd n status hm
      rcases List.mem_append.mp hm with hm | hm
      · exact s8 h1.2 cwd n status hm
      · exact h2 cwd n status hm
    · intro n hn
      rcases List.mem_cons.mp hn with hn | hn
      · obtain ⟨cwd, status, hm⟩ := s9
        exact ⟨cwd, status, List.mem_append.mpr (Or.inl (hn ▸ hm))⟩
      · obtain ⟨cwd, status, hm⟩ := r9 n hn
        exact ⟨cwd, status, List.mem_append.mpr (Or.inr hm)⟩

/-- C5, counterexample: in the batch `[libs, libs/foo]` the three steps of `libs` exit with
0 and the deinit step of `libs/foo` with 1; the purge of `libs` removes every key under
`libs`, and the metadata group of `libs/foo`, whose deinit step failed, is gone. -/
theorem removePods_failed_pod_loses_metadata :
    eventsSince (projWorld nestedInfo)
        (removePods nestedDeinitFailsEnv "/proj" ["libs", "libs/foo"] (projWorld nestedInfo)).2 =
      [Event.emitted (Signal.isGitRepositoryFinished "/proj" true),
       Event.executed "/proj" (Cmd.submoduleDeinit "libs") 0,
       Event.executed "/proj" (Cmd.gitRm "libs") 0,
       Event.executed "/proj" (Cmd.line "rm -rf /proj/.git/modules/libs") 0,
       Event.executed "/proj" (Cmd.gitAdd [".podinfo"]) 0,
       Event.executed "/proj" (Cmd.submoduleDeinit "libs/foo") 1,
       Event.emitted (Signal.removePodsFinished "/proj" ["libs", "libs/foo"] false)] ∧
    Settings.group ((projWorld nestedInfo).settings ["/proj", ".podinfo"]) "libs/foo" =
      some [(["author"], "bob")] ∧
    Settings.group ((removePods nestedDeinitFailsEnv "/proj" ["libs", "libs/foo"]
      (projWorld nestedInfo)).2.settings ["/proj", ".podinfo"]) "libs/foo" = none :=
  ⟨rfl, rfl, rfl⟩

/-- C5, amended: in a batch `removePods` on a git repository in which the deinit step of
at least one pod fails, (1) the call returns false, (2) apart from the signal of the
repository check, everything observed is a command that was run, followed at the end by
`removePodsFinished` with `success = false` (so no generator ran), (3) every pod whose
three steps all exited with 0 has no metadata group afterwards, (4) every pod of the
batch whose deinit step exited with a status other than 0 has the metadata group it had
before, provided that no other pod whose `git rm` step exited with 0 has a name that
overlaps with its name as a settings key, (5) the generated files are the ones from
before, and (6) the deinit step has been run for every pod of the batch. -/
theorem removePods_with_failed_deinit (env : Env σ) (repository : String)
    (podNames : List String) (w : World σ)
    (hgit : env.fileExists w.outside [repository, ".git"] = true)
    (hfail : ∃ n cwd status, status ≠ 0 ∧
      Event.executed cwd (Cmd.submoduleDeinit n) status ∈
        eventsSince w (removePods env repository podNames w).2) :
    (removePods env repository podNames w).1 = false ∧
    (∃ T : List Event,
      eventsSince w (removePods env repository podNames w).2 =
        Event.emitted (Signal.isGitRepositoryFinished repository true) :: T ++
          [Event.emitted (Signal.removePodsFinished repository podNames false)] ∧
      ∀ e ∈ T, ∃ cwd cmd status, e = Event.executed cwd cmd status) ∧
    (∀ n, (∃ c1 c2 c3,
        Event.executed c1 (Cmd.submoduleDeinit n) 0 ∈
          eventsSince w (removePods env repository podNames w).2 ∧
        Event.executed c2 (Cmd.gitRm n) 0 ∈
          eventsSince w (removePods env repository podNames w).2 ∧
        Event.executed c3 (Cmd.line (rmModulesText repository n)) 0 ∈
          eventsSince w (removePods env repository podNames w).2) →
      Settings.group
        ((removePods env repository podNames w).2.settings [repository, ".podinfo"]) n = none) ∧
    (∀ n ∈ podNames, (∀ cwd status,
        Event.executed cwd (Cmd.submoduleDeinit n) status ∈
          eventsSince w (removePods env repository podNames w).2 → status ≠ 0) →
      (∀ x c, Event.executed c (Cmd.gitRm x) 0 ∈
          eventsSince w (removePods env repository podNames w).2 → x ≠ n → ¬ overlap x n) →
      Settings.group
        ((removePods env repository podNames w).2.settings [repository, ".podinfo"]) n =
      Settings.group (w.settings [repository, ".podinfo"]) n) ∧
    (removePods env repository podNames w).2.files = w.files ∧
    (∀ n ∈ podNames, ∃ cwd status,
      Event.executed cwd (Cmd.submoduleDeinit n) status ∈
        eventsSince w (removePods env repository podNames w).2) := by
  obtain ⟨T, t1, t2, t3, _, t5, t6, t7, t8, t9⟩ :=
    removePodsLoop_spec env repository podNames true
      (setCurrent env [repository] (emit (Signal.isGitRepositoryFinished repository true) w))
  simp only [setCurrent_trace, emit_trace, setCurrent_settings, emit_settings,
    setCurrent_files, emit_files] at t1 t2 t5 t6
  cases hl : (removePodsLoop env repository podNames true
    (setCurrent env [repository] (emit (Signal.isGitRepositoryFinished repository true) w))).1
  · have hr : removePods env repository podNames w =
        (false, emit (Signal.removePodsFinished repository podNames false)
          (setCurrent env [w.cwd] (removePodsLoop env repository podNames true
            (setCurrent env [repository]
              (emit (Signal.isGitRepositoryFinished repository true) w))).2)) := by
      simp [removePods, isGitRepository, hgit, hl]
    have he : eventsSince w (removePods env repository podNames w).2 =
        Event.emitted (Signal.isGitRepositoryFinished repository true) :: T ++
          [Event.emitted (Signal.removePodsFinished repository podNames false)] := by
      apply eventsSince_append
      rw [hr]
      simp [t1]
    rw [he]
    refine ⟨by rw [hr], ⟨T, rfl, t3⟩, ?_, ?_, ?_, ?_⟩
    · rintro n ⟨c1, c2, c3, -, h2, -⟩
      simp only [List.mem_cons, List.mem_append, List.mem_singleton, reduceCtorEq,
        false_or, or_false, List.not_mem_nil] at h2
      rw [hr]
      simpa using t5 n n c2 h2 (List.prefix_refl _)
    · intro n _ h hother
      rw [hr]
      simp only [emit_settings, setCurrent_settings]
      apply t6
      intro y c hm
      by_cases hy : y = n
      · exfalso
        obtain ⟨c0, h0⟩ := t7 y c 0 hm
        exact h c0 0 (by simp [← hy, h0]) rfl
      · exact hother y c (by simp [hm]) hy
    · rw [hr]; simpa using t2
    · intro n hn
      obtain ⟨cwd, status, hm⟩ := t9 n hn
      exact ⟨cwd, status, by simp [hm]⟩
  · exfalso
    obtain ⟨pods1, c1, a1, pods2, c2, a2, c3, a3, hg⟩ := regenerate_trace env repository
      (setCurrent env [w.cwd] (removePodsLoop env repository podNames true
        (setCurrent env [repository]
          (emit (Signal.isGitRepositoryFinished repository true) w))).2)
    have hr : removePods env repository podNames w =
        (true, emit (Signal.removePodsFinished repository podNames true)
          (generateSubdirsPro env repository (generatePodsSubdirsPri env repository
            (generatePodsPri env repository
              (setCurrent env [w.cwd] (removePodsLoop env repository podNames true
                (setCurrent env [repository]
                  (emit (Signal.isGitRepositoryFinished repository true) w))).2))))) := by
      simp [removePods, isGitRepository, hgit, hl]
    obtain ⟨n, cwd, status, hne, hm⟩ := hfail
    rw [hr] at hm
    simp only [emit_trace, hg, setCurrent_trace, t1] at hm
    rw [eventsSince_append w _ _ (by simp only [emit_trace, hg, setCurrent_trace, t1, List.append_assoc]; rfl)] at hm
    simp only [List.mem_cons, List.mem_append, List.mem_singleton, reduceCtorEq,
      false_or, or_false, Event.executed.injEq, false_and, and_false, List.not_mem_nil] at hm
    exact hne ((t8 hl).2 cwd n status hm)

/-- C5, amended, on the batch `[a, b]` in which the three steps of `a` exit with 0 and the
deinit step of `b` with 1: the call returns false, the group of `a` is purged, the group
of `b` is kept, and the generated files are untouched. -/
theorem removePods_with_failed_deinit_witness :
    deinitBFailsEnv.fileExists (projWorld abInfo).outside ["/proj", ".git"] = true ∧
    (removePods deinitBFailsEnv "/proj" ["a", "b"] (projWorld abInfo)).1 = false ∧
    Settings.group ((removePods deinitBFailsEnv "/proj" ["a", "b"]
      (projWorld abInfo)).2.settings ["/proj", ".podinfo"]) "a" = none ∧
    Settings.group ((removePods deinitBFailsEnv "/proj" ["a", "b"]
      (projWorld abInfo)).2.settings ["/proj", ".podinfo"]) "b" = some [(["author"], "bob")] ∧
    (removePods deinitBFailsEnv "/proj" ["a", "b"] (projWorld abInfo)).2.files =
      (projWorld abInfo).files :=
  have he : eventsSince (projWorld abInfo)
      (removePods deinitBFailsEnv "/proj" ["a", "b"] (projWorld abInfo)).2 =
      [Event.emitted (Signal.isGitRepositoryFinished "/proj" true),
       Event.executed "/proj" (Cmd.submoduleDeinit "a") 0,
       Event.executed "/proj" (Cmd.gitRm "a") 0,
       Event.executed "/proj" (Cmd.line "rm -rf /proj/.git/modules/a") 0,
       Event.executed "/proj" (Cmd.gitAdd [".podinfo"]) 0,
       Event.executed "/proj" (Cmd.submoduleDeinit "b") 1,
       Event.emitted (Signal.removePodsFinished "/proj" ["a", "b"] false)] := rfl
  have h := removePods_with_failed_deinit deinitBFailsEnv "/proj" ["a", "b"] (projWorld abInfo)
    rfl ⟨"b", "/proj", 1, by decide, by rw [he]; decide⟩
  ⟨rfl, h.1,
    h.2.2.1 "a" ⟨"/proj", "/proj", "/proj", by rw [he]; decide, by rw [he]; decide,
      by rw [he]; decide⟩,
    (h.2.2.2.1 "b" (by decide)
      (by
        rw [he]
        intro cwd status hm
        simp at hm
        simp [hm.2])
      (by
        rw [he]
        intro x c hm _
        simp at hm
        rw [hm.2]
        unfold overlap
        decide)).trans rfl,
    h.2.2.2.2.1⟩

/-! ### The metadata of a batch removal -/

theorem removePods_run (env : Env σ) (repository : String) (podNames : List String)
    (w : World σ) (hgit : env.fileExists w.outside [repository, ".git"] = true) :
    ∃ T : List Event,
      (∀ c m status, Event.executed c (Cmd.gitRm m) status ∈
          eventsSince w (removePods env repository podNames w).2 ↔
        Event.executed c (Cmd.gitRm m) status ∈ T) ∧
      (∀ c m status, Event.executed c (Cmd.submoduleDeinit m) status ∈
          eventsSince w (removePods env repository podNames w).2 ↔
        Event.executed c (Cmd.submoduleDeinit m) status ∈ T) ∧
      (∀ y n c, Event.executed c (Cmd.gitRm y) 0 ∈ T → segments y <+: segments n →
        Settings.group
          ((removePods env repository podNames w).2.settings [repository, ".podinfo"]) n = none) ∧
      (∀ n, (∀ y c, Event.executed c (Cmd.gitRm y) 0 ∈ T → ¬ overlap y n) →
        Settings.group
          ((removePods env repository podNames w).2.settings [repository, ".podinfo"]) n =
          Settings.group (w.settings [repository, ".podinfo"]) n) ∧
      (∀ n c status, Event.executed c (Cmd.gitRm n) status ∈ T →
        ∃ c0, Event.executed c0 (Cmd.submoduleDeinit n) 0 ∈ T) := by
  obtain ⟨T, t1, _, _, _, t3, t4, t5, _, _⟩ :=
    removePodsLoop_spec env repository podNames true
      (setCurrent env [repository] (emit (Signal.isGitRepositoryFinished repository true) w))
  simp only [setCurrent_trace, emit_trace, setCurrent_settings, emit_settings] at t1 t3 t4
  cases hl : (removePodsLoop env repository podNames true
    (setCurrent env [repository] (emit (Signal.isGitRepositoryFinished repository true) w))).1
  · have hr : removePods env repository podNames w =
        (false, emit (Signal.removePodsFinished repository podNames false)
          (setCurrent env [w.cwd] (removePodsLoop env repository podNames true
            (setCurrent env [repository]
              (emit (Signal.isGitRepositoryFinished repository true) w))).2)) := by
      simp [removePods, isGitRepository, hgit, hl]
    have he : eventsSince w (removePods env repository podNames w).2 =
        Event.emitted (Signal.isGitRepositoryFinished repository true) :: T ++
          [Event.emitted (Signal.removePodsFinished repository podNames false)] := by
      apply eventsSince_append
      rw [hr]
      simp [t1]
    rw [he, hr]
    simp only [emit_settings, setCurrent_settings]
    refine ⟨T, ?_, ?_, t3, t4, t5⟩
    · intro c m status; simp
    · intro c m status; simp
  · obtain ⟨pods1, c1, a1, pods2, c2, a2, c3, a3, hg⟩ := regenerate_trace env repository
      (setCurrent env [w.cwd] (removePodsLoop env repository podNames true
        (setCurrent env [repository]
          (emit (Signal.isGitRepositoryFinished repository true) w))).2)
    have hr : removePods env repository podNames w =
        (true, emit (Signal.removePodsFinished repository podNames true)
          (generateSubdirsPro env repository (generatePodsSubdirsPri env repository
            (generatePodsPri env repository
              (setCurrent env [w.cwd] (removePodsLoop env repository podNames true
                (setCurrent env [repository]
                  (emit (Signal.isGitRepositoryFinished repository true) w))).2))))) := by
      simp [removePods, isGitRepository, hgit, hl]
    have he : eventsSince w (removePods env repository podNames w).2 =
        Event.emitted (Signal.isGitRepositoryFinished repository true) :: T ++
          [Event.emitted (Signal.installedPodsFinished repository pods1),
           Event.executed c1 (Cmd.gitAdd [repository, "pods.pri"]) a1,
           Event.emitted (Signal.generatePodsPriFinished repository),
           Event.emitted (Signal.installedPodsFinished repository pods2),
           Event.executed c2 (Cmd.gitAdd [repository, "pods-subdirs.pri"]) a2,
           Event.emitted (Signal.generatePodsSubdirsPriFinished repository),
           Event.executed c3 (Cmd.gitAdd (subdirsProPath repository)) a3,
           Event.emitted (Signal.generateSubdirsProFinished repository),
           Event.emitted (Signal.removePodsFinished repository podNames true)] := by
      apply eventsSince_append
      rw [hr]
      simp only [emit_trace, hg, setCurrent_trace, t1, List.append_assoc, List.cons_append,
        List.nil_append]
    rw [he, hr]
    simp only [emit_settings, setCurrent_settings, generateSubdirsPro_settings,
      generatePodsSubdirsPri_settings, generatePodsPri_settings]
    refine ⟨T, ?_, ?_, t3, t4, t5⟩
    · intro c m status; simp
    · intro c m status; simp

/-- C12, counterexample: in the batch `[a, b]` the first two steps of `a` exit with 0 and
its third step, `rm -rf /proj/.git/modules/a`, with 1; the metadata group of `a` is purged
all the same. -/
theorem removePods_purges_when_third_step_fails :
    eventsSince (projWorld abInfo)
        (removePods rmModulesFailsEnv "/proj" ["a", "b"] (projWorld abInfo)).2 =
      [Event.emitted (Signal.isGitRepositoryFinished "/proj" true),
       Event.executed "/proj" (Cmd.submoduleDeinit "a") 0,
       Event.executed "/proj" (Cmd.gitRm "a") 0,
       Event.executed "/proj" (Cmd.line "rm -rf /proj/.git/modules/a") 1,
       Event.executed "/proj" (Cmd.gitAdd [".podinfo"]) 0,
       Event.executed "/proj" (Cmd.submoduleDeinit "b") 0,
       Event.executed "/proj" (Cmd.gitRm "b") 0,
       Event.executed "/proj" (Cmd.line "rm -rf /proj/.git/modules/b") 0,
       Event.executed "/proj" (Cmd.gitAdd [".podinfo"]) 0,
       Event.emitted (Signal.removePodsFinished "/proj" ["a", "b"] false)] ∧
    Settings.group ((projWorld abInfo).settings ["/proj", ".podinfo"]) "a" =
      some [(["author"], "alice")] ∧
    Settings.group ((removePods rmModulesFailsEnv "/proj" ["a", "b"]
      (projWorld abInfo)).2.settings ["/proj", ".podinfo"]) "a" = none :=
  ⟨rfl, rfl, rfl⟩

/-- C12, amended: in `removePods` on a git repository, for every pod and every outcome of
the external commands, the metadata group of the pod is purged when the first two steps
of the pod, `git submodule deinit -f` and `git rm -rf`, exited with 0, whatever the exit
status of its third step; otherwise the pod has the metadata group it had before,
provided that no other pod whose `git rm` step exited with 0 has a name that overlaps
with its name as a settings key.  No other step of another pod of the batch enters. -/
theorem removePods_purge_iff_first_two_steps (env : Env σ) (repository : String)
    (podNames : List String) (w : World σ) (n : String)
    (hgit : env.fileExists w.outside [repository, ".git"] = true) :
    ((∃ c1 c2,
        Event.executed c1 (Cmd.submoduleDeinit n) 0 ∈
          eventsSince w (removePods env repository podNames w).2 ∧
        Event.executed c2 (Cmd.gitRm n) 0 ∈
          eventsSince w (removePods env repository podNames w).2) →
      Settings.group
        ((removePods env repository podNames w).2.settings [repository, ".podinfo"]) n = none) ∧
    ((¬ ∃ c1 c2,
        Event.executed c1 (Cmd.submoduleDeinit n) 0 ∈
          eventsSince w (removePods env repository podNames w).2 ∧
        Event.executed c2 (Cmd.gitRm n) 0 ∈
          eventsSince w (removePods env repository podNames w).2) →
      (∀ x c, Event.executed c (Cmd.gitRm x) 0 ∈
          eventsSince w (removePods env repository podNames w).2 → x ≠ n → ¬ overlap x n) →
      Settings.group
        ((removePods env repository podNames w).2.settings [repository, ".podinfo"]) n =
      Settings.group (w.settings [repository, ".podinfo"]) n) := by
  obtain ⟨T, f1, f2, t3, t4, t5⟩ := removePods_run env repository podNames w hgit
  constructor
  · rintro ⟨c1, c2, -, h2⟩
    exact t3 n n c2 ((f1 c2 n 0).mp h2) (List.prefix_refl _)
  · intro h hother
    apply t4
    intro y c hc
    by_cases hy : y = n
    · exfalso
      apply h
      obtain ⟨c0, h0⟩ := t5 y c 0 hc
      exact ⟨c0, c, hy ▸ (f2 c0 y 0).mpr h0, hy ▸ (f1 c y 0).mpr hc⟩
    · exact hother y c ((f1 c y 0).mpr hc) hy

/-- C12, amended, on the batch `[a, b]` in which only the third step of `a` fails: the
group of `a` is purged; and on the batch in which the deinit step of `b` fails: the group
of `b` is kept. -/
theorem removePods_purge_iff_first_two_steps_witness :
    rmModulesFailsEnv.fileExists (projWorld abInfo).outside ["/proj", ".git"] = true ∧
    Settings.group ((removePods rmModulesFailsEnv "/proj" ["a", "b"]
      (projWorld abInfo)).2.settings ["/proj", ".podinfo"]) "a" = none ∧
    deinitBFailsEnv.fileExists (projWorld abInfo).outside ["/proj", ".git"] = true ∧
    Settings.group ((removePods deinitBFailsEnv "/proj" ["a", "b"]
      (projWorld abInfo)).2.settings ["/proj", ".podinfo"]) "b" = some [(["author"], "bob")] :=
  have he : eventsSince (projWorld abInfo)
      (removePods deinitBFailsEnv "/proj" ["a", "b"] (projWorld abInfo)).2 =
      [Event.emitted (Signal.isGitRepositoryFinished "/proj" true),
       Event.executed "/proj" (Cmd.submoduleDeinit "a") 0,
       Event.executed "/proj" (Cmd.gitRm "a") 0,
       Event.executed "/proj" (Cmd.line "rm -rf /proj/.git/modules/a") 0,
       Event.executed "/proj" (Cmd.gitAdd [".podinfo"]) 0,
       Event.executed "/proj" (Cmd.submoduleDeinit "b") 1,
       Event.emitted (Signal.removePodsFinished "/proj" ["a", "b"] false)] := rfl
  ⟨rfl,
   (removePods_purge_iff_first_two_steps rmModulesFailsEnv "/proj" ["a", "b"]
      (projWorld abInfo) "a" rfl).1 ⟨"/proj", "/proj", by decide, by decide⟩,
   rfl,
   ((removePods_purge_iff_first_two_steps deinitBFailsEnv "/proj" ["a", "b"]
      (projWorld abInfo) "b" rfl).2
      (by
        rw [he]
        rintro ⟨c1, c2, -, h2⟩
        simp at h2)
      (by
        rw [he]
        intro x c hm _
        simp at hm
        rw [hm.2]
        unfold overlap
        decide)).trans rfl⟩

/-! ### Validation of a pod -/

theorem map_eq_self_iff (f : Char → Char) (l : List Char) :
    l.map f = l ↔ ∀ c ∈ l, f c = c := by
  induction l with
  | nil => simp
  | cons a rest ih => simp [ih]

theorem toLower_eq_iff (lower : Char → Char) (s : String) :
    s = toLower lower s ↔ ∀ c ∈ s.data, lower c = c := by
  rw [← map_eq_self_iff]
  constructor
  · intro h
    have h2 := congrArg String.data h
    simp only [toLower] at h2
    exact h2.symm
  · intro h
    simp only [toLower, h]

/-- C7: `checkPod` returns true exactly when the name is its own lower-case form, the
directory `<repository>/<name>` exists, and the directory holds `LICENSE`, `README.md`,
`<name>.pri` and `<name>.pro`; for a name with a character that the lower-case mapping
changes (an upper-case character) it returns false, whatever exists on disk. -/
theorem checkPod_iff (lower : Char → Char) (env : Env σ) (repository podName : String)
    (w : World σ) :
    ((checkPod lower env repository podName w).1 = true ↔
      podName = toLower lower podName ∧
      env.dirExists w.outside [repository, podName] = true ∧
      env.fileExists w.outside [repository, podName, "LICENSE"] = true ∧
      env.fileExists w.outside [repository, podName, "README.md"] = true ∧
      env.fileExists w.outside [repository, podName, podName ++ ".pri"] = true ∧
      env.fileExists w.outside [repository, podName, podName ++ ".pro"] = true) ∧
    ((∃ c ∈ podName.data, lower c ≠ c) → (checkPod lower env repository podName w).1 = false) := by
  constructor
  · simp [checkPod, isValidPod, and_assoc]
  · rintro ⟨c, hc, hne⟩
    have h : ¬ podName = toLower lower podName := by
      rw [toLower_eq_iff]
      intro hall
      exact hne (hall c hc)
    simp [checkPod, isValidPod, h]

/-- C7, on the repository `/proj`: the pod `foo` is valid, and the pod `Foo`, whose
directory holds the four files as well, is not. -/
theorem checkPod_iff_witness :
    (checkPod asciiLower podTreesEnv "/proj" "foo" (projWorld [])).1 = true ∧
    (checkPod asciiLower podTreesEnv "/proj" "Foo" (projWorld [])).1 = false :=
  ⟨(checkPod_iff asciiLower podTreesEnv "/proj" "foo" (projWorld [])).1.mpr (by decide),
   (checkPod_iff asciiLower podTreesEnv "/proj" "Foo" (projWorld [])).2
     ⟨'F', by decide, by decide⟩⟩

/-! ### The catalog -/

theorem assoc_of_mem_nodup {β : Type} (key : String) (value : β) :
    ∀ (l : List (String × β)), (l.map Prod.fst).Nodup → (key, value) ∈ l →
      assoc key l = some value := by
  intro l
  induction l with
  | nil => intro _ h; simp at h
  | cons e rest ih =>
    obtain ⟨k, v⟩ := e
    intro hnd hmem
    simp only [List.map_cons, List.nodup_cons] at hnd
    rcases List.mem_cons.mp hmem with h | h
    · cases h
      simp [assoc]
    · have hk : k ≠ key := by
        intro hk
        apply hnd.1
        rw [hk]
        exact List.mem_map.mpr ⟨(key, value), h, rfl⟩
      simp [assoc, hk, ih hnd.2 h]

theorem filter_name_map (f : String → Pod) (hf : ∀ k, (f k).name = k) (key : String) :
    ∀ (keys : List String), keys.Nodup → key ∈ keys →
      (keys.map f).filter (fun pod => decide (pod.name = key)) = [f key] := by
  intro keys
  induction keys with
  | nil => intro _ h; simp at h
  | cons k rest ih =>
    intro hnd hmem
    simp only [List.nodup_cons] at hnd
    by_cases hk : k = key
    · subst hk
      have hnone : (rest.map f).filter (fun pod => decide (pod.name = k)) = [] := by
        rw [List.filter_eq_nil_iff]
        intro pod hp
        obtain ⟨k2, hk2, rfl⟩ := List.mem_map.mp hp
        simp only [hf, decide_eq_true_eq]
        intro h
        exact hnd.1 (h ▸ hk2)
      simp [List.filter, hf, hnone]
    · have hmem2 : key ∈ rest := by
        rcases List.mem_cons.mp hmem with h | h
        · exact absurd h.symm hk
        · exact h
      simp [List.filter, hf, hk, ih hnd.2 hmem2]

theorem catalogPod_name (object : QJsonObject) (key : String) :
    (catalogPod object key).name = key := by
  unfold catalogPod
  split <;> rfl

theorem availablePods_single (remote : Remote) (source : String) (document : QJsonDocument)
    (w : World σ) (hnet : remote.accessible = true)
    (hdoc : remote.fromJson (remote.readAll source) = some document) :
    (availablePods remote [source] w).1 = catalogPods document := by
  simp [availablePods, availablePodsLoop, hnet, hdoc]

/-- C8: when the network is reachable and the reply of a source parses to a document that
is an object (whose keys are distinct, as the keys of a `QJsonObject` are), `availablePods`
returns for that source as many pods as the object has keys; a key whose value is a string
gives exactly one pod of that name, with the string as url and empty author, description
and license; a key whose value is an object gives exactly one pod of that name, with url,
author, description and license read from the fields `url`, `author`, `description`,
`license` of that object. -/
theorem availablePods_object (remote : Remote) (source : String) (members : QJsonObject)
    (w : World σ) (hnet : remote.accessible = true)
    (hdoc : remote.fromJson (remote.readAll source) = some (QJsonDocument.object members))
    (hkeys : (QJsonObject.keys members).Nodup) :
    (availablePods remote [source] w).1.length = (QJsonObject.keys members).length ∧
    (∀ key s, (key, QJsonValue.string s) ∈ members →
      (availablePods remote [source] w).1.filter (fun pod => decide (pod.name = key)) =
        [{ name := key, url := s, author := "", description := "", license := "" }]) ∧
    (∀ key metaObject, (key, QJsonValue.object metaObject) ∈ members →
      (availablePods remote [source] w).1.filter (fun pod => decide (pod.name = key)) =
        [{ name := key
           url := (QJsonObject.value metaObject "url").toString
           author := (QJsonObject.value metaObject "author").toString
           description := (QJsonObject.value metaObject "description").toString
           license := (QJsonObject.value metaObject "license").toString }]) := by
  rw [availablePods_single remote source _ w hnet hdoc]
  refine ⟨by simp [catalogPods, QJsonDocument.toObject], ?_, ?_⟩
  · intro key s hmem
    have hk : key ∈ QJsonObject.keys members := List.mem_map.mpr ⟨_, hmem, rfl⟩
    have hv : QJsonObject.value members key = QJsonValue.string s := by
      simp [QJsonObject.value, assoc_of_mem_nodup key _ members hkeys hmem]
    simp only [catalogPods, QJsonDocument.toObject]
    rw [filter_name_map _ (catalogPod_name members) key _ hkeys hk]
    simp [catalogPod, hv, QJsonValue.isObject, QJsonValue.toString]
  · intro key metaObject hmem
    have hk : key ∈ QJsonObject.keys members := List.mem_map.mpr ⟨_, hmem, rfl⟩
    have hv : QJsonObject.value members key = QJsonValue.object metaObject := by
      simp [QJsonObject.value, assoc_of_mem_nodup key _ members hkeys hmem]
    simp only [catalogPods, QJsonDocument.toObject]
    rw [filter_name_map _ (catalogPod_name members) key _ hkeys hk]
    simp [catalogPod, hv, QJsonValue.isObject, QJsonValue.toObject]

/-- C8, on the two documents of the specification: a source whose reply parses to the
legacy document that maps `foo` to the string `https://x/foo.git`, and a source whose reply
parses to the document that maps `foo` to an object with the fields `url`, `author`,
`description` and `license`; for each, `availablePods` returns one pod, `foo`. -/
theorem availablePods_object_witness :
    (availablePods catalogRemote ["https://x/legacy.json"] (projWorld [])).1 =
      [{ name := "foo", url := "https://x/foo.git", author := "", description := "",
         license := "" }] ∧
    (availablePods catalogRemote ["https://x/pods.json"] (projWorld [])).1 =
      [{ name := "foo", url := "u", author := "a", description := "d", license := "l" }] :=
  have h := availablePods_object catalogRemote "https://x/legacy.json"
    [("foo", QJsonValue.string "https://x/foo.git")] (projWorld []) rfl rfl (by decide)
  have k := availablePods_object catalogRemote "https://x/pods.json"
    [("foo", QJsonValue.object
        [("url", QJsonValue.string "u"), ("author", QJsonValue.string "a"),
         ("description", QJsonValue.string "d"), ("license", QJsonValue.string "l")])]
    (projWorld []) rfl rfl (by decide)
  ⟨(List.filter_eq_self.mpr (by decide)).symm.trans
      (h.2.1 "foo" "https://x/foo.git" (List.mem_singleton.mpr rfl)),
   (List.filter_eq_self.mpr (by decide)).symm.trans
      ((k.2.2 "foo" _ (List.mem_singleton.mpr rfl)).trans rfl)⟩

/-! ### The generated files -/

theorem writeFile_absent (path : Path) (data : String) (w : World σ)
    (h : w.files path = none) : (writeFile path data w).files path = some data := by
  simp [writeFile, h]

theorem removeFile_files_same (path : Path) (w : World σ) :
    (removeFile path w).files path = if w.canRemove path = true then none else w.files path := by
  unfold removeFile
  split <;> simp

theorem removeFile_files_other (path other : Path) (w : World σ) (h : other ≠ path) :
    (removeFile path w).files other = w.files other := by
  unfold removeFile
  split
  · simp [setAt_other _ _ _ _ h]
  · rfl

theorem writeFile_files_other (path other : Path) (data : String) (w : World σ)
    (h : other ≠ path) : (writeFile path data w).files other = w.files other := by
  simp [writeFile, setAt_other _ _ _ _ h]

theorem generatePodsPri_file (env : Env σ) (repository : String) (w : World σ) :
    (generatePodsPri env repository w).files [repository, "pods.pri"] =
      if w.canOpen [repository, "pods.pri"] = true then
        some (String.mk ((podsPriText (installedPodList env repository w)).data ++
          (((if w.canRemove [repository, "pods.pri"] = true then none
             else w.files [repository, "pods.pri"]).getD "").data.drop
            (podsPriText (installedPodList env repository w)).data.length)))
      else if w.canRemove [repository, "pods.pri"] = true then none
      else w.files [repository, "pods.pri"] := by
  simp only [generatePodsPri, installedPods, emit_files, stageFile_files, removeFile_canOpen,
    emit_canOpen]
  split
  · simp only [writeFile, setAt_same, removeFile_files_same, emit_files, emit_canRemove]
  · simp only [removeFile_files_same, emit_files, emit_canRemove]

theorem generatePodsPri_files_other (env : Env σ) (repository : String) (w : World σ)
    (other : Path) (h : other ≠ [repository, "pods.pri"]) :
    (generatePodsPri env repository w).files other = w.files other := by
  simp only [generatePodsPri, installedPods, emit_files, stageFile_files]
  split
  · rw [writeFile_files_other _ _ _ _ h, removeFile_files_other _ _ _ h]
    rfl
  · rw [removeFile_files_other _ _ _ h]
    rfl

/-- C10, counterexample: in a repository without the subdirs project file in which the
file cannot be opened for writing, `generateSubdirsPro` does not create the file. -/
theorem generateSubdirsPro_not_created :
    lockedWorld.files (subdirsProPath "/proj") = none ∧
    (generateSubdirsPro noPodsEnv "/proj" lockedWorld).files (subdirsProPath "/proj") = none :=
  ⟨rfl, rfl⟩

/-- C10, amended: `generateSubdirsPro` leaves the content of an existing
`<repo-dir-name>.pro` unchanged; when the file is absent and can be opened for writing, it
creates it with the two comment lines followed by the lines `TEMPLATE = subdirs`,
`SUBDIRS =` and `include(pods-subdirs.pri)`; when the file is absent and cannot be
opened, it stays absent; and a second call leaves the file as the first call left it. -/
theorem generateSubdirsPro_file (env : Env σ) (repository : String) (w : World σ) :
    (∀ content, w.files (subdirsProPath repository) = some content →
      (generateSubdirsPro env repository w).files (subdirsProPath repository) = some content) ∧
    (w.files (subdirsProPath repository) = none →
      w.canOpen (subdirsProPath repository) = true →
      (generateSubdirsPro env repository w).files (subdirsProPath repository) =
        some ("# Auto-generated by qt-pods.\n# This file should be put under version control.\n" ++
          "TEMPLATE = subdirs\n" ++ "SUBDIRS =\n" ++ "include(pods-subdirs.pri)\n")) ∧
    (w.files (subdirsProPath repository) = none →
      w.canOpen (subdirsProPath repository) = false →
      (generateSubdirsPro env repository w).files (subdirsProPath repository) = none) ∧
    (generateSubdirsPro env repository (generateSubdirsPro env repository w)).files
        (subdirsProPath repository) =
      (generateSubdirsPro env repository w).files (subdirsProPath repository) := by
  have hsome : ∀ (v : World σ) content, v.files (subdirsProPath repository) = some content →
      (generateSubdirsPro env repository v).files (subdirsProPath repository) = some content := by
    intro v content h
    simp [generateSubdirsPro, h]
  have hopen : ∀ (v : World σ), v.files (subdirsProPath repository) = none →
      v.canOpen (subdirsProPath repository) = true →
      (generateSubdirsPro env repository v).files (subdirsProPath repository) =
        some subdirsProText := by
    intro v h hc
    simp [generateSubdirsPro, h, hc, writeFile_absent]
  have hshut : ∀ (v : World σ), v.files (subdirsProPath repository) = none →
      v.canOpen (subdirsProPath repository) = false →
      (generateSubdirsPro env repository v).files (subdirsProPath repository) = none := by
    intro v h hc
    simp [generateSubdirsPro, h, hc]
  refine ⟨hsome w, ?_, hshut w, ?_⟩
  · intro h hc
    rw [hopen w h hc]
    rfl
  · cases hf : w.files (subdirsProPath repository) with
    | some content => rw [hsome _ content (hsome w content hf), hsome w content hf]
    | none =>
      cases hc : w.canOpen (subdirsProPath repository) with
      | true => rw [hsome _ _ (hopen w hf hc), hopen w hf hc]
      | false =>
        rw [hshut _ (hshut w hf hc) (by rw [generateSubdirsPro_canOpen]; exact hc),
          hshut w hf hc]

/-- C10, amended, on the repository `/proj`: the absent file `proj.pro` is created, and a
hand-edited `proj.pro` is kept. -/
theorem generateSubdirsPro_file_witness :
    (projWorld []).files ["/proj", "proj.pro"] = none ∧
    (projWorld []).canOpen ["/proj", "proj.pro"] = true ∧
    (generateSubdirsPro noPodsEnv "/proj" (projWorld [])).files ["/proj", "proj.pro"] =
      some "# Auto-generated by qt-pods.\n# This file should be put under version control.\nTEMPLATE = subdirs\nSUBDIRS =\ninclude(pods-subdirs.pri)\n" ∧
    (generateSubdirsPro noPodsEnv "/proj"
        (writeFile ["/proj", "proj.pro"] "TEMPLATE = subdirs\nSUBDIRS = app\n"
          (projWorld []))).files ["/proj", "proj.pro"] =
      some "TEMPLATE = subdirs\nSUBDIRS = app\n" :=
  ⟨rfl, rfl,
   ((generateSubdirsPro_file noPodsEnv "/proj" (projWorld [])).2.1 rfl rfl).trans (by decide),
   (generateSubdirsPro_file noPodsEnv "/proj"
      (writeFile ["/proj", "proj.pro"] "TEMPLATE = subdirs\nSUBDIRS = app\n"
        (projWorld []))).1 _ rfl⟩

/-! ### Installation of one pod -/

theorem pieces_plain (xs ys : List Char) (h : '%' ∉ xs) :
    pieces Scan.outside (xs ++ ys) = xs.map Piece.plain ++ pieces Scan.outside ys := by
  induction xs with
  | nil => rfl
  | cons c cs ih =>
    have hc : c ≠ '%' := fun e => h (by simp [e])
    have hcs : '%' ∉ cs := fun e => h (List.mem_cons_of_mem _ e)
    simp [pieces, hc, ih hcs]

theorem lowestMarker_plain (xs : List Char) (ps : List Piece) :
    lowestMarker (xs.map Piece.plain ++ ps) = lowestMarker ps := by
  induction xs with
  | nil => rfl
  | cons c cs ih => simpa [lowestMarker] using ih

theorem substitute_plain (number : Nat) (argument xs : List Char) (ps : List Piece) :
    substitute number argument (xs.map Piece.plain ++ ps) =
      xs ++ substitute number argument ps := by
  induction xs with
  | nil => rfl
  | cons c cs ih => simpa [substitute] using ih

/-- With a url that holds no `%`, the two chained calls of `arg` leave the template with the
url and the name in the places of `%1` and `%2`. -/
theorem submoduleAddText_plain (url name : String) (h : '%' ∉ url.data) :
    submoduleAddText url name = "git submodule add " ++ url ++ " " ++ name := by
  have hp : pieces Scan.outside "git submodule add %1 %2".data =
      "git submodule add ".data.map Piece.plain ++
        [Piece.marker 1 ['%', '1'], Piece.plain ' ', Piece.marker 2 ['%', '2']] := by decide
  have h1 : qArg "git submodule add %1 %2" url =
      String.mk (("git submodule add ".data ++ url.data) ++ [' ', '%', '2']) := by
    unfold qArg
    rw [hp, lowestMarker_plain]
    simp [lowestMarker, substitute_plain, substitute]
  have hfree : '%' ∉ "git submodule add ".data ++ url.data := by
    intro hm
    rcases List.mem_append.mp hm with hm | hm
    · revert hm; decide
    · exact h hm
  have hq : pieces Scan.outside [' ', '%', '2'] =
      [Piece.plain ' ', Piece.marker 2 ['%', '2']] := by decide
  unfold submoduleAddText
  rw [h1]
  unfold qArg
  simp only []
  rw [pieces_plain _ _ hfree, hq, lowestMarker_plain]
  simp [lowestMarker, substitute_plain, substitute, String.ext_iff]

/-- A url that holds a place marker: the second call of `arg` finds `%2` inside the url
that the first call put in, and replaces it as well. -/
theorem submoduleAddText_marker_in_url :
    submoduleAddText "https://x/a%2Fb.git" "foo" =
      "git submodule add https://x/afooFb.git foo" ∧
    submoduleAddText "https://x/a%1Fb.git" "foo" =
      "git submodule add https://x/afooFb.git %2" := by
  decide

theorem pro_ne_pods_pri (d : String) : d ++ ".pro" ≠ "pods.pri" := by
  intro h
  have := congrArg (fun s => s.data.getLast?) h
  simp at this

theorem pro_ne_pods_subdirs_pri (d : String) : d ++ ".pro" ≠ "pods-subdirs.pri" := by
  intro h
  have := congrArg (fun s => s.data.getLast?) h
  simp at this

theorem subdirsProPath_ne_pods_pri (repository : String) :
    subdirsProPath repository ≠ [repository, "pods.pri"] := by
  intro h
  simp only [subdirsProPath, List.cons.injEq, and_true, true_and] at h
  exact pro_ne_pods_pri _ h

theorem subdirsProPath_ne_pods_subdirs_pri (repository : String) :
    subdirsProPath repository ≠ [repository, "pods-subdirs.pri"] := by
  intro h
  simp only [subdirsProPath, List.cons.injEq, and_true, true_and] at h
  exact pro_ne_pods_subdirs_pri _ h

theorem pods_pri_ne_pods_subdirs_pri (repository : String) :
    ([repository, "pods.pri"] : Path) ≠ [repository, "pods-subdirs.pri"] := by
  intro h
  simp only [List.cons.injEq, and_true, true_and] at h
  revert h
  decide

@[simp] theorem generatePodsSubdirsPri_canRemove (env : Env σ) (repository : String)
    (w : World σ) : (generatePodsSubdirsPri env repository w).canRemove = w.canRemove := by
  simp only [generatePodsSubdirsPri, installedPods, emit_canRemove, stageFile_canRemove]
  split <;> simp

@[simp] theorem writePodInfo_files (env : Env σ) (repository : String) (pod : Pod)
    (w : World σ) : (writePodInfo env repository pod w).files = w.files := by
  simp [writePodInfo]

@[simp] theorem writePodInfo_canOpen (env : Env σ) (repository : String) (pod : Pod)
    (w : World σ) : (writePodInfo env repository pod w).canOpen = w.canOpen := by
  simp [writePodInfo]

@[simp] theorem writePodInfo_canRemove (env : Env σ) (repository : String) (pod : Pod)
    (w : World σ) : (writePodInfo env repository pod w).canRemove = w.canRemove := by
  simp [writePodInfo]

theorem generatePodsPri_fresh (env : Env σ) (repository : String) (w : World σ)
    (hold : w.canRemove [repository, "pods.pri"] = true ∨ w.files [repository, "pods.pri"] = none)
    (hopen : w.canOpen [repository, "pods.pri"] = true) :
    (generatePodsPri env repository w).files [repository, "pods.pri"] =
      some (podsPriText (installedPodList env repository w)) := by
  rw [generatePodsPri_file]
  rcases hold with h | h <;> simp [h, hopen]

theorem generatePodsSubdirsPri_file (env : Env σ) (repository : String) (w : World σ) :
    (generatePodsSubdirsPri env repository w).files [repository, "pods-subdirs.pri"] =
      if w.canOpen [repository, "pods-subdirs.pri"] = true then
        some (String.mk ((podsSubdirsPriText (installedPodList env repository w)).data ++
          (((if w.canRemove [repository, "pods-subdirs.pri"] = true then none
             else w.files [repository, "pods-subdirs.pri"]).getD "").data.drop
            (podsSubdirsPriText (installedPodList env repository w)).data.length)))
      else if w.canRemove [repository, "pods-subdirs.pri"] = true then none
      else w.files [repository, "pods-subdirs.pri"] := by
  simp only [generatePodsSubdirsPri, installedPods, emit_files, stageFile_files,
    removeFile_canOpen, emit_canOpen]
  split
  · simp only [writeFile, setAt_same, removeFile_files_same, emit_files, emit_canRemove]
  · simp only [removeFile_files_same, emit_files, emit_canRemove]

theorem generatePodsSubdirsPri_fresh (env : Env σ) (repository : String) (w : World σ)
    (hold : w.canRemove [repository, "pods-subdirs.pri"] = true ∨
      w.files [repository, "pods-subdirs.pri"] = none)
    (hopen : w.canOpen [repository, "pods-subdirs.pri"] = true) :
    (generatePodsSubdirsPri env repository w).files [repository, "pods-subdirs.pri"] =
      some (podsSubdirsPriText (installedPodList env repository w)) := by
  rw [generatePodsSubdirsPri_file]
  rcases hold with h | h <;> simp [h, hopen]

theorem generatePodsSubdirsPri_files_other (env : Env σ) (repository : String) (w : World σ)
    (other : Path) (h : other ≠ [repository, "pods-subdirs.pri"]) :
    (generatePodsSubdirsPri env repository w).files other = w.files other := by
  simp only [generatePodsSubdirsPri, installedPods, emit_files, stageFile_files]
  split
  · rw [writeFile_files_other _ _ _ _ h, removeFile_files_other _ _ _ h]
    rfl
  · rw [removeFile_files_other _ _ _ h]
    rfl

theorem generateSubdirsPro_files_other (env : Env σ) (repository : String) (w : World σ)
    (other : Path) (h : other ≠ subdirsProPath repository) :
    (generateSubdirsPro env repository w).files other = w.files other := by
  simp only [generateSubdirsPro, emit_files, stageFile_files]
  split
  · rfl
  · split
    · rw [writeFile_files_other _ _ _ _ h]
    · rfl

theorem generateSubdirsPro_kept (env : Env σ) (repository : String) (w : World σ)
    (content : String) (h : w.files (subdirsProPath repository) = some content) :
    (generateSubdirsPro env repository w).files (subdirsProPath repository) = some content := by
  simp [generateSubdirsPro, h]

theorem generateSubdirsPro_created (env : Env σ) (repository : String) (w : World σ)
    (h : w.files (subdirsProPath repository) = none)
    (hopen : w.canOpen (subdirsProPath repository) = true) :
    (generateSubdirsPro env repository w).files (subdirsProPath repository) =
      some subdirsProText := by
  simp [generateSubdirsPro, h, hopen, writeFile_absent]

/-- The four fields that `writePodInfo` leaves in the group of the pod. -/
theorem writePodInfo_values (env : Env σ) (repository : String) (pod : Pod) (w : World σ) :
    Settings.value ((writePodInfo env repository pod w).settings [repository, ".podinfo"])
      pod.name "author" = pod.author ∧
    Settings.value ((writePodInfo env repository pod w).settings [repository, ".podinfo"])
      pod.name "description" = pod.description ∧
    Settings.value ((writePodInfo env repository pod w).settings [repository, ".podinfo"])
      pod.name "license" = pod.license ∧
    Settings.value ((writePodInfo env repository pod w).settings [repository, ".podinfo"])
      pod.name "website" = pod.website := by
  simp only [writePodInfo, stageFile_settings, setAt_same]
  refine ⟨?_, ?_, ?_, ?_⟩
  · rw [value_setValue_other _ _ _ _ _ (by decide), value_setValue_other _ _ _ _ _ (by decide),
      value_setValue_other _ _ _ _ _ (by decide), value_setValue_same]
  · rw [value_setValue_other _ _ _ _ _ (by decide), value_setValue_other _ _ _ _ _ (by decide),
      value_setValue_same]
  · rw [value_setValue_other _ _ _ _ _ (by decide), value_setValue_same]
  · rw [value_setValue_same]

/-- The files that the three generators, run one after the other, leave. -/
theorem regenerate_files (env : Env σ) (repository : String) (w : World σ) :
    ((w.canRemove [repository, "pods.pri"] = true ∨ w.files [repository, "pods.pri"] = none) →
      w.canOpen [repository, "pods.pri"] = true →
      (generateSubdirsPro env repository (generatePodsSubdirsPri env repository
          (generatePodsPri env repository w))).files [repository, "pods.pri"] =
        some (podsPriText (installedPodList env repository w))) ∧
    ((w.canRemove [repository, "pods-subdirs.pri"] = true ∨
        w.files [repository, "pods-subdirs.pri"] = none) →
      w.canOpen [repository, "pods-subdirs.pri"] = true →
      (generateSubdirsPro env repository (generatePodsSubdirsPri env repository
          (generatePodsPri env repository w))).files [repository, "pods-subdirs.pri"] =
        some (podsSubdirsPriText
          (installedPodList env repository (generatePodsPri env repository w)))) ∧
    (∀ content, w.files (subdirsProPath repository) = some content →
      (generateSubdirsPro env repository (generatePodsSubdirsPri env repository
          (generatePodsPri env repository w))).files (subdirsProPath repository) =
        some content) ∧
    (w.files (subdirsProPath repository) = none →
      w.canOpen (subdirsProPath repository) = true →
      (generateSubdirsPro env repository (generatePodsSubdirsPri env repository
          (generatePodsPri env repository w))).files (subdirsProPath repository) =
        some subdirsProText) := by
  have hkeep : (generatePodsSubdirsPri env repository
      (generatePodsPri env repository w)).files (subdirsProPath repository) =
      w.files (subdirsProPath repository) := by
    rw [generatePodsSubdirsPri_files_other _ _ _ _ (subdirsProPath_ne_pods_subdirs_pri _),
      generatePodsPri_files_other _ _ _ _ (subdirsProPath_ne_pods_pri _)]
  refine ⟨?_, ?_, ?_, ?_⟩
  · intro hold hopen
    rw [generateSubdirsPro_files_other _ _ _ _ (subdirsProPath_ne_pods_pri _).symm,
      generatePodsSubdirsPri_files_other _ _ _ _ (pods_pri_ne_pods_subdirs_pri _)]
    exact generatePodsPri_fresh env repository w hold hopen
  · intro hold hopen
    rw [generateSubdirsPro_files_other _ _ _ _ (subdirsProPath_ne_pods_subdirs_pri _).symm]
    apply generatePodsSubdirsPri_fresh
    · rw [generatePodsPri_canRemove,
        generatePodsPri_files_other _ _ _ _ (pods_pri_ne_pods_subdirs_pri _).symm]
      exact hold
    · rw [generatePodsPri_canOpen]
      exact hopen
  · intro content h
    exact generateSubdirsPro_kept env repository _ content (hkeep.trans h)
  · intro h hopen
    apply generateSubdirsPro_created
    · exact hkeep.trans h
    · rw [generatePodsSubdirsPri_canOpen, generatePodsPri_canOpen]
      exact hopen

/-- C6, counterexample: in the repository `/proj`, where no file can be opened for writing,
`git submodule add https://x/foo.git foo` exits with 0 and `installPod` returns true, but
none of `pods.pri`, `pods-subdirs.pri` and `proj.pro` is written: the three files are as
absent after the call as before. -/
theorem installPod_writes_no_file :
    installedPodList allSucceedEnv "/proj" lockedWorld =
      [{ name := "foo", url := "https://x/foo.git" }] ∧
    (installPod allSucceedEnv "/proj" fooPod lockedWorld).1 = true ∧
    (Event.executed "/proj" (Cmd.line "git submodule add https://x/foo.git foo") 0 ∈
      eventsSince lockedWorld (installPod allSucceedEnv "/proj" fooPod lockedWorld).2) ∧
    (installPod allSucceedEnv "/proj" fooPod lockedWorld).2.files ["/proj", "pods.pri"] =
      none ∧
    (installPod allSucceedEnv "/proj" fooPod lockedWorld).2.files
      ["/proj", "pods-subdirs.pri"] = none ∧
    (installPod allSucceedEnv "/proj" fooPod lockedWorld).2.files ["/proj", "proj.pro"] =
      none := by
  refine ⟨by decide, rfl, by decide, rfl, rfl, rfl⟩

/-- C6, amended: on a git repository `installPod` runs one command, the text that
`QString("git submodule add %1 %2").arg(url).arg(name)` builds, in the repository
directory; for a url without `%` that text is `git submodule add <url> <name>`.  When the
command exits with a status other than 0, the call returns false, the only other events
are the signal of the repository check and `installPodFinished` with `success = false`,
and no metadata and no file changes.  When it exits with 0, the call returns true and the
events are, in this order: the metadata file staged (after the group of the pod was
written), `pods.pri`, `pods-subdirs.pri` and the subdirs project file generated and
staged, and `installPodFinished` with `success = true`; the metadata group of the pod
holds the four fields of the pod; `pods.pri`, when it can be opened for writing and the
old file can be removed or is absent, holds the text generated for the installed-pod list
announced before it is written, and so does `pods-subdirs.pri`; an existing subdirs
project file is kept, and an absent one that can be opened is created with the fixed
text; and the world is the one that `writePodInfo`, `generatePodsPri`,
`generatePodsSubdirsPri` and `generateSubdirsPro`, run in this order after the command,
leave. -/
theorem installPod_outcome (env : Env σ) (repository : String) (pod : Pod) (w : World σ)
    (hgit : env.fileExists w.outside [repository, ".git"] = true) :
    ('%' ∉ pod.url.data →
      submoduleAddText pod.url pod.name =
        "git submodule add " ++ pod.url ++ " " ++ pod.name) ∧
    ((execute env (Cmd.line (submoduleAddText pod.url pod.name))
        (setCurrent env [repository] w)).1 ≠ 0 →
      (installPod env repository pod w).1 = false ∧
      eventsSince w (installPod env repository pod w).2 =
        [Event.emitted (Signal.isGitRepositoryFinished repository true),
         Event.executed (setCurrent env [repository] w).cwd
           (Cmd.line (submoduleAddText pod.url pod.name))
           (execute env (Cmd.line (submoduleAddText pod.url pod.name))
             (setCurrent env [repository] w)).1,
         Event.emitted (Signal.installPodFinished repository pod false)] ∧
      (installPod env repository pod w).2.settings = w.settings ∧
      (installPod env repository pod w).2.files = w.files) ∧
    ((execute env (Cmd.line (submoduleAddText pod.url pod.name))
        (setCurrent env [repository] w)).1 = 0 →
      (installPod env repository pod w).1 = true ∧
      (∃ c1 a1 pods1 c2 a2 pods2 c3 a3 c4 a4,
        eventsSince w (installPod env repository pod w).2 =
          [Event.emitted (Signal.isGitRepositoryFinished repository true),
           Event.executed (setCurrent env [repository] w).cwd
             (Cmd.line (submoduleAddText pod.url pod.name)) 0,
           Event.executed c1 (Cmd.gitAdd [".podinfo"]) a1,
           Event.emitted (Signal.installedPodsFinished repository pods1),
           Event.executed c2 (Cmd.gitAdd [repository, "pods.pri"]) a2,
           Event.emitted (Signal.generatePodsPriFinished repository),
           Event.emitted (Signal.installedPodsFinished repository pods2),
           Event.executed c3 (Cmd.gitAdd [repository, "pods-subdirs.pri"]) a3,
           Event.emitted (Signal.generatePodsSubdirsPriFinished repository),
           Event.executed c4 (Cmd.gitAdd (subdirsProPath repository)) a4,
           Event.emitted (Signal.generateSubdirsProFinished repository),
           Event.emitted (Signal.installPodFinished repository pod true)] ∧
        ((w.canRemove [repository, "pods.pri"] = true ∨
            w.files [repository, "pods.pri"] = none) →
          w.canOpen [repository, "pods.pri"] = true →
          (installPod env repository pod w).2.files [repository, "pods.pri"] =
            some (podsPriText pods1)) ∧
        ((w.canRemove [repository, "pods-subdirs.pri"] = true ∨
            w.files [repository, "pods-subdirs.pri"] = none) →
          w.canOpen [repository, "pods-subdirs.pri"] = true →
          (installPod env repository pod w).2.files [repository, "pods-subdirs.pri"] =
            some (podsSubdirsPriText pods2))) ∧
      (∀ content, w.files (subdirsProPath repository) = some content →
        (installPod env repository pod w).2.files (subdirsProPath repository) =
          some content) ∧
      (w.files (subdirsProPath repository) = none →
        w.canOpen (subdirsProPath repository) = true →
        (installPod env repository pod w).2.files (subdirsProPath repository) =
          some subdirsProText) ∧
      Settings.value ((installPod env repository pod w).2.settings [repository, ".podinfo"])
        pod.name "author" = pod.author ∧
      Settings.value ((installPod env repository pod w).2.settings [repository, ".podinfo"])
        pod.name "description" = pod.description ∧
      Settings.value ((installPod env repository pod w).2.settings [repository, ".podinfo"])
        pod.name "license" = pod.license ∧
      Settings.value ((installPod env repository pod w).2.settings [repository, ".podinfo"])
        pod.name "website" = pod.website ∧
      (installPod env repository pod w).2 =
        emit (Signal.installPodFinished repository pod true)
          (generateSubdirsPro env repository (generatePodsSubdirsPri env repository
            (generatePodsPri env repository (writePodInfo env repository pod
              (setCurrent env [w.cwd]
                (execute env (Cmd.line (submoduleAddText pod.url pod.name))
                  (emit (Signal.isGitRepositoryFinished repository true)
                    (setCurrent env [repository] w))).2)))))) := by
  refine ⟨submoduleAddText_plain pod.url pod.name, ?_, ?_⟩
  · intro hs
    have hr : installPod env repository pod w =
        (false, emit (Signal.installPodFinished repository pod false)
          (setCurrent env [w.cwd]
            (execute env (Cmd.line (submoduleAddText pod.url pod.name))
              (emit (Signal.isGitRepositoryFinished repository true)
                (setCurrent env [repository] w))).2)) := by
      have hs2 : ¬ (execute env (Cmd.line (submoduleAddText pod.url pod.name))
          (emit (Signal.isGitRepositoryFinished repository true)
            (setCurrent env [repository] w))).1 = 0 := hs
      simp [installPod, isGitRepository, hgit, setCurrent_emit, hs2]
    rw [hr]
    refine ⟨rfl, ?_, by simp, by simp⟩
    apply eventsSince_append
    simp
    rfl
  · intro hs
    have hs2 : (execute env (Cmd.line (submoduleAddText pod.url pod.name))
        (emit (Signal.isGitRepositoryFinished repository true)
          (setCurrent env [repository] w))).1 = 0 := hs
    have hr : installPod env repository pod w =
        (true, emit (Signal.installPodFinished repository pod true)
          (generateSubdirsPro env repository (generatePodsSubdirsPri env repository
            (generatePodsPri env repository (writePodInfo env repository pod
              (setCurrent env [w.cwd]
                (execute env (Cmd.line (submoduleAddText pod.url pod.name))
                  (emit (Signal.isGitRepositoryFinished repository true)
                    (setCurrent env [repository] w))).2)))))) := by
      simp [installPod, isGitRepository, hgit, setCurrent_emit, hs2]
    have hf := regenerate_files env repository (writePodInfo env repository pod
      (setCurrent env [w.cwd] (execute env (Cmd.line (submoduleAddText pod.url pod.name))
        (emit (Signal.isGitRepositoryFinished repository true)
          (setCurrent env [repository] w))).2))
    simp only [writePodInfo_files, writePodInfo_canOpen, writePodInfo_canRemove,
      setCurrent_files, setCurrent_canOpen, setCurrent_canRemove, execute_files,
      execute_canOpen, execute_canRemove, emit_files, emit_canOpen, emit_canRemove] at hf
    obtain ⟨c2, a2, hg1⟩ := generatePodsPri_trace env repository
      (writePodInfo env repository pod
        (setCurrent env [w.cwd] (execute env (Cmd.line (submoduleAddText pod.url pod.name))
          (emit (Signal.isGitRepositoryFinished repository true)
            (setCurrent env [repository] w))).2))
    obtain ⟨c3, a3, hg2⟩ := generatePodsSubdirsPri_trace env repository
      (generatePodsPri env repository (writePodInfo env repository pod
        (setCurrent env [w.cwd] (execute env (Cmd.line (submoduleAddText pod.url pod.name))
          (emit (Signal.isGitRepositoryFinished repository true)
            (setCurrent env [repository] w))).2)))
    obtain ⟨c4, a4, hg3⟩ := generateSubdirsPro_trace env repository
      (generatePodsSubdirsPri env repository
        (generatePodsPri env repository (writePodInfo env repository pod
          (setCurrent env [w.cwd] (execute env (Cmd.line (submoduleAddText pod.url pod.name))
            (emit (Signal.isGitRepositoryFinished repository true)
              (setCurrent env [repository] w))).2))))
    obtain ⟨c1, a1, hw⟩ := writePodInfo_trace env repository pod
      (setCurrent env [w.cwd] (execute env (Cmd.line (submoduleAddText pod.url pod.name))
          (emit (Signal.isGitRepositoryFinished repository true)
            (setCurrent env [repository] w))).2)
    rw [hr]
    refine ⟨rfl, ⟨c1, a1,
      installedPodList env repository (writePodInfo env repository pod
        (setCurrent env [w.cwd] (execute env (Cmd.line (submoduleAddText pod.url pod.name))
          (emit (Signal.isGitRepositoryFinished repository true)
            (setCurrent env [repository] w))).2)), c2, a2,
      installedPodList env repository (generatePodsPri env repository
        (writePodInfo env repository pod
          (setCurrent env [w.cwd] (execute env (Cmd.line (submoduleAddText pod.url pod.name))
            (emit (Signal.isGitRepositoryFinished repository true)
              (setCurrent env [repository] w))).2))), c3, a3, c4, a4, ?_, ?_, ?_⟩,
      ?_, ?_, ?_, ?_, ?_, ?_, rfl⟩
    · apply eventsSince_append
      simp only [emit_trace, hg3, hg2, hg1, hw, setCurrent_trace, execute_trace, hs2, emit_cwd,
        List.append_assoc, List.cons_append, List.nil_append]
    · intro hold hopen
      simp only [emit_files]
      exact hf.1 hold hopen
    · intro hold hopen
      simp only [emit_files]
      exact hf.2.1 hold hopen
    · intro content h
      simp only [emit_files]
      exact hf.2.2.1 content h
    · intro h hopen
      simp only [emit_files]
      exact hf.2.2.2 h hopen
    · simpa using (writePodInfo_values env repository pod _).1
    · simpa using (writePodInfo_values env repository pod _).2.1
    · simpa using (writePodInfo_values env repository pod _).2.2.1
    · simpa using (writePodInfo_values env repository pod _).2.2.2

/-- C6, amended, on the repository `/proj`: when `git submodule add https://x/foo.git foo`
exits with 0 the pod `foo` is installed, its metadata written, and the three files hold
the generated texts; when it exits with 128 the call fails and nothing is written. -/
theorem installPod_outcome_witness :
    allSucceedEnv.fileExists (projWorld []).outside ["/proj", ".git"] = true ∧
    submoduleAddText "https://x/foo.git" "foo" = "git submodule add https://x/foo.git foo" ∧
    (installPod allSucceedEnv "/proj" fooPod (projWorld [])).1 = true ∧
    Settings.value ((installPod allSucceedEnv "/proj" fooPod (projWorld [])).2.settings
      ["/proj", ".podinfo"]) "foo" "author" = "a" ∧
    (installPod allSucceedEnv "/proj" fooPod (projWorld [])).2.files ["/proj", "proj.pro"] =
      some "# Auto-generated by qt-pods.\n# This file should be put under version control.\nTEMPLATE = subdirs\nSUBDIRS =\ninclude(pods-subdirs.pri)\n" ∧
    addFailsEnv.fileExists (projWorld []).outside ["/proj", ".git"] = true ∧
    (installPod addFailsEnv "/proj" fooPod (projWorld [])).1 = false ∧
    (installPod addFailsEnv "/proj" fooPod (projWorld [])).2.settings =
      (projWorld []).settings ∧
    (installPod addFailsEnv "/proj" fooPod (projWorld [])).2.files = (projWorld []).files :=
  have h := installPod_outcome allSucceedEnv "/proj" fooPod (projWorld []) rfl
  have k := (installPod_outcome addFailsEnv "/proj" fooPod (projWorld []) rfl).2.1
    (by decide)
  ⟨rfl, h.1 (by decide), (h.2.2 rfl).1, (h.2.2 rfl).2.2.2.2.1,
   ((h.2.2 rfl).2.2.2.1 rfl rfl).trans (by decide), rfl, k.1, k.2.2.1, k.2.2.2⟩

/-- The texts that the installation of `foo` in `/proj` leaves in `pods.pri` and in
`pods-subdirs.pri`. -/
theorem installPod_generated_texts :
    (installPod allSucceedEnv "/proj" fooPod (projWorld [])).2.files ["/proj", "pods.pri"] =
      some "# Auto-generated by qt-pods. Do not edit.\n# Include this to your application project file with:\n# include(../pods.pri)\n# This file should be put under version control.\n\ninclude(foo/foo.pri)\n\n" ∧
    (installPod allSucceedEnv "/proj" fooPod (projWorld [])).2.files
        ["/proj", "pods-subdirs.pri"] =
      some "# Auto-generated by qt-pods. Do not edit.\n# Include this to your subdirs project file with:\n# include(pods-subdirs.pri)\n# This file should be put under version control.\n\nSUBDIRS += \\\n\tfoo \n\n" := by
  refine ⟨by decide, by decide⟩

/-! ### The working directory -/

theorem setCurrent_back (env : Env σ) (d : String)
    (hback : ∀ s c, env.chdir s c [d] = some d) (w : World σ) :
    (setCurrent env [d] w).cwd = d := by
  simp [setCurrent, hback]

theorem stageFile_cwd (env : Env σ) (d : String)
    (hback : ∀ s c, env.chdir s c [d] = some d) (repository : String) (fileName : Path)
    (w : World σ) (hw : w.cwd = d) :
    (stageFile env repository fileName w).cwd = d := by
  simp only [stageFile, hw]
  exact setCurrent_back env d hback _

theorem purgePodInfo_cwd (env : Env σ) (d : String)
    (hback : ∀ s c, env.chdir s c [d] = some d) (repository podName : String)
    (w : World σ) (hw : w.cwd = d) :
    (purgePodInfo env repository podName w).cwd = d := by
  unfold purgePodInfo
  exact stageFile_cwd env d hback _ _ _ hw

theorem writePodInfo_cwd (env : Env σ) (d : String)
    (hback : ∀ s c, env.chdir s c [d] = some d) (repository : String) (pod : Pod)
    (w : World σ) (hw : w.cwd = d) :
    (writePodInfo env repository pod w).cwd = d := by
  unfold writePodInfo
  exact stageFile_cwd env d hback _ _ _ hw

theorem generatePodsPri_cwd (env : Env σ) (d : String)
    (hback : ∀ s c, env.chdir s c [d] = some d) (repository : String)
    (w : World σ) (hw : w.cwd = d) :
    (generatePodsPri env repository w).cwd = d := by
  simp only [generatePodsPri, installedPods, emit_cwd]
  apply stageFile_cwd env d hback
  split <;> simpa using hw

theorem generatePodsSubdirsPri_cwd (env : Env σ) (d : String)
    (hback : ∀ s c, env.chdir s c [d] = some d) (repository : String)
    (w : World σ) (hw : w.cwd = d) :
    (generatePodsSubdirsPri env repository w).cwd = d := by
  simp only [generatePodsSubdirsPri, installedPods, emit_cwd]
  apply stageFile_cwd env d hback
  split <;> simpa using hw

theorem generateSubdirsPro_cwd (env : Env σ) (d : String)
    (hback : ∀ s c, env.chdir s c [d] = some d) (repository : String)
    (w : World σ) (hw : w.cwd = d) :
    (generateSubdirsPro env repository w).cwd = d := by
  simp only [generateSubdirsPro, emit_cwd]
  apply stageFile_cwd env d hback
  split
  · exact hw
  · split
    · simpa using hw
    · exact hw

theorem regenerate_cwd (env : Env σ) (d : String)
    (hback : ∀ s c, env.chdir s c [d] = some d) (repository : String)
    (w : World σ) (hw : w.cwd = d) :
    (generateSubdirsPro env repository (generatePodsSubdirsPri env repository
      (generatePodsPri env repository w))).cwd = d :=
  generateSubdirsPro_cwd env d hback _ _
    (generatePodsSubdirsPri_cwd env d hback _ _ (generatePodsPri_cwd env d hback _ _ hw))

/-- C11, counterexample: the process runs in `/proj/foo`, the directory of the pod `foo`,
and `removePod` removes that pod with every command exiting with 0; the change back to
`/proj/foo` fails because the directory is gone, and the process is left in `/proj`. -/
theorem removePod_leaves_other_directory :
    insidePodWorld.cwd = "/proj/foo" ∧
    (removePod podDirRemovedEnv "/proj" "foo" insidePodWorld).1 = true ∧
    (removePod podDirRemovedEnv "/proj" "foo" insidePodWorld).2.cwd = "/proj" :=
  ⟨rfl, rfl, rfl⟩

/-- C11, amended: when every change back to the directory that was current before the
call succeeds, then after each of `installPod`, `installPods`, `removePod`, `removePods`,
`updatePod`, `updatePods`, `updateAllPods`, the three generators and `stageFile` the
working directory is the one from before the call, for every exit status of every
external command. -/
theorem working_directory_restored (env : Env σ) (repository : String) (pod : Pod)
    (pods : List Pod) (podName : String) (podNames : List String) (fileName : Path)
    (w : World σ) (hback : ∀ s c, env.chdir s c [w.cwd] = some w.cwd) :
    (installPod env repository pod w).2.cwd = w.cwd ∧
    (installPods env repository pods w).2.cwd = w.cwd ∧
    (removePod env repository podName w).2.cwd = w.cwd ∧
    (removePods env repository podNames w).2.cwd = w.cwd ∧
    (updatePod env repository podName w).2.cwd = w.cwd ∧
    (updatePods env repository podNames w).2.cwd = w.cwd ∧
    (updateAllPods env repository w).2.cwd = w.cwd ∧
    (generatePodsPri env repository w).cwd = w.cwd ∧
    (generatePodsSubdirsPri env repository w).cwd = w.cwd ∧
    (generateSubdirsPro env repository w).cwd = w.cwd ∧
    (stageFile env repository fileName w).cwd = w.cwd := by
  have hset : ∀ v : World σ, (setCurrent env [w.cwd] v).cwd = w.cwd :=
    setCurrent_back env w.cwd hback
  have hgen : ∀ v : World σ, v.cwd = w.cwd →
      (generateSubdirsPro env repository (generatePodsSubdirsPri env repository
        (generatePodsPri env repository v))).cwd = w.cwd :=
    regenerate_cwd env w.cwd hback repository
  refine ⟨?_, ?_, ?_, ?_, ?_, ?_, ?_, ?_, ?_, ?_, ?_⟩
  · simp only [installPod, isGitRepository, emit_cwd]
    split
    · rfl
    · split
      · exact hset _
      · exact hgen _ (writePodInfo_cwd env w.cwd hback _ _ _ (hset _))
  · simp only [installPods, isGitRepository, emit_cwd]
    split
    · rfl
    · split
      · exact hset _
      · exact hgen _ (hset _)
  · simp only [removePod, isGitRepository, emit_cwd]
    split
    · rfl
    · split
      · exact hset _
      · exact hgen _ (purgePodInfo_cwd env w.cwd hback _ _ _ (hset _))
  · simp only [removePods, isGitRepository, emit_cwd]
    split
    · rfl
    · split
      · exact hset _
      · exact hgen _ (hset _)
  · simp only [updatePod, isGitRepository, emit_cwd]
    split
    · rfl
    · exact hset _
  · simp only [updatePods, isGitRepository, emit_cwd]
    split
    · rfl
    · simp only [emit_cwd]
      split
      · exact hset _
      · exact hset _
  · simp only [updateAllPods, isGitRepository, installedPods, updateAllPodsLoop_false]
    split <;> simp
  · exact generatePodsPri_cwd env w.cwd hback _ _ rfl
  · exact generatePodsSubdirsPri_cwd env w.cwd hback _ _ rfl
  · exact generateSubdirsPro_cwd env w.cwd hback _ _ rfl
  · exact stageFile_cwd env w.cwd hback _ _ _ rfl

/-- C11, amended, on the repository `/proj` entered from `/home`: after a removal in which
`git rm` fails, and after a batch update in which `git stash` fails, the process is in
`/home` again. -/
theorem working_directory_restored_witness :
    (projWorld fooInfo).cwd = "/home" ∧
    (removePod gitRmFailsEnv "/proj" "foo" (projWorld fooInfo)).2.cwd = "/home" ∧
    (updatePods stashFailsEnv "/proj" ["foo"] (projWorld fooInfo)).2.cwd = "/home" :=
  ⟨rfl,
   (working_directory_restored gitRmFailsEnv "/proj" fooPod [] "foo" ["foo"] [".podinfo"]
      (projWorld fooInfo) (fun _ _ => rfl)).2.2.1,
   (working_directory_restored stashFailsEnv "/proj" fooPod [] "foo" ["foo"] [".podinfo"]
      (projWorld fooInfo) (fun _ _ => rfl)).2.2.2.2.2.1⟩

end PodManager
